import Mathlib

/-!
Verification development for the birdnet-api2ha repository.

This file gives a shallow embedding of the data-access layer (`db.py`),
the HTTP date-range helper (`app.py`) and the MQTT polling bridge
(`mqtt_bridge.py`), and proves or refutes the frozen specification claims
about them.

Modelling conventions:
* SQLite tables are Lean lists of typed rows; a table that does not exist
  in the database file is `Option.none`.
* SQLite dynamic typing matters only for the `confidence` column, which the
  Python code feeds to `float(...)`; it is modelled by `SqlVal`
  (NULL / numeric / text).  Python floats are modelled as rationals.
* Python exceptions become `Except DbError`.
* `datetime.strptime(...).timestamp()` interprets naive datetimes in the
  server's local timezone; the model assumes a UTC environment (TZ=UTC),
  so the conversion is the proleptic-Gregorian epoch conversion.
* String comparison models SQLite BINARY collation, i.e. codepoint order
  (identical to byte order for UTF-8).
* Python `float(str)` is modelled on plain decimal literals (optional sign,
  digits, optional fractional part); exponent/inf/nan forms are outside the
  inputs exercised here.
-/

set_option maxRecDepth 100000

namespace B2HA

/-! ### Characters, strings -/

/-- Decimal digit test on a character. -/
def isDigitC (c : Char) : Bool := 48 ≤ c.toNat && c.toNat ≤ 57

/-- Numeric value of a decimal digit character. -/
def digitVal (c : Char) : Nat := c.toNat - 48

/-- The character for a decimal digit. -/
def digitChar (n : Nat) : Char := Char.ofNat (48 + n)

/-- Value of a digit string, most significant first. -/
def digitsVal (l : List Char) : Nat := l.foldl (fun a c => a * 10 + digitVal c) 0

/-- Decimal digits of a natural number (fuel-based so that it reduces in the
kernel); `fuel` must exceed the number of digits. -/
def natDigitsF : Nat → Nat → List Char
  | 0, _ => []
  | fuel + 1, n =>
    if n < 10 then [digitChar n]
    else natDigitsF fuel (n / 10) ++ [digitChar (n % 10)]

/-- Model of Python `str` on a natural number. -/
def natStr (n : Nat) : String := String.mk (natDigitsF (n + 1) n)

/-- Whitespace as stripped by Python `str.strip()` and matched by the `\s+`
that `strptime` substitutes for a space in its format, restricted to the
ASCII range (space, TAB, LF, VT, FF, CR and the separators 0x1C–0x1F);
non-ASCII Unicode whitespace is outside the model. -/
def isPySpace (c : Char) : Bool :=
  c.toNat = 32 || (9 ≤ c.toNat && c.toNat ≤ 13) || (28 ≤ c.toNat && c.toNat ≤ 31)

/-- Model of Python `str.strip()`. -/
def pyStrip (s : String) : String :=
  String.mk (((s.data.dropWhile isPySpace).reverse.dropWhile isPySpace).reverse)

/-- ASCII lower-casing of one character (models both SQLite `LIKE` folding and
Python `str.lower()` on the ASCII range relevant here). -/
def lowerC (c : Char) : Char :=
  if 65 ≤ c.toNat && c.toNat ≤ 90 then Char.ofNat (c.toNat + 32) else c

/-- ASCII lower-casing of a string. -/
def lowerStr (s : String) : String := String.mk (s.data.map lowerC)

/-- Lexicographic (codepoint) order on character lists: models SQLite BINARY
collation string comparison. -/
def charsLe : List Char → List Char → Bool
  | [], _ => true
  | _ :: _, [] => false
  | a :: as, b :: bs =>
    if a.toNat < b.toNat then true
    else if b.toNat < a.toNat then false
    else charsLe as bs

/-- `a <= b` for SQLite text values. -/
def strLe (a b : String) : Bool := charsLe a.data b.data

theorem charsLe_cons (x y : Char) (as bs : List Char) :
    charsLe (x :: as) (y :: bs) = true ↔
      x.toNat < y.toNat ∨ (x.toNat = y.toNat ∧ charsLe as bs = true) := by
  by_cases h1 : x.toNat < y.toNat
  · simp [charsLe, h1]
  · by_cases h2 : y.toNat < x.toNat
    · simp [charsLe, h1, h2]; omega
    · simp [charsLe, h1, h2]; omega

theorem charsLe_total (a b : List Char) : charsLe a b = true ∨ charsLe b a = true := by
  induction a generalizing b with
  | nil => left; rfl
  | cons x as ih =>
    cases b with
    | nil => right; rfl
    | cons y bs =>
      rcases ih bs with h | h
      · by_cases hxy : x.toNat < y.toNat
        · left; rw [charsLe_cons]; omega
        · by_cases hyx : y.toNat < x.toNat
          · right; rw [charsLe_cons]; omega
          · left; rw [charsLe_cons]; exact Or.inr ⟨by omega, h⟩
      · by_cases hxy : x.toNat < y.toNat
        · left; rw [charsLe_cons]; omega
        · by_cases hyx : y.toNat < x.toNat
          · right; rw [charsLe_cons]; omega
          · right; rw [charsLe_cons]; exact Or.inr ⟨by omega, h⟩

theorem charsLe_trans (a b c : List Char) (h1 : charsLe a b = true)
    (h2 : charsLe b c = true) : charsLe a c = true := by
  induction a generalizing b c with
  | nil => rfl
  | cons x as ih =>
    cases b with
    | nil => simp [charsLe] at h1
    | cons y bs =>
      cases c with
      | nil => simp [charsLe] at h2
      | cons z cs =>
        rw [charsLe_cons] at h1 h2 ⊢
        rcases h1 with h1 | ⟨he1, hr1⟩
        · rcases h2 with h2 | ⟨he2, _⟩
          · omega
          · omega
        · rcases h2 with h2 | ⟨he2, hr2⟩
          · omega
          · exact Or.inr ⟨by omega, ih bs cs hr1 hr2⟩

theorem strLe_total (a b : String) : strLe a b = true ∨ strLe b a = true :=
  charsLe_total a.data b.data

theorem strLe_trans (a b c : String) (h1 : strLe a b = true) (h2 : strLe b c = true) :
    strLe a c = true :=
  charsLe_trans a.data b.data c.data h1 h2

/-! ### `natStr` round-trip and injectivity -/

/-- Parse back a digit string. -/
def parseDigits (l : List Char) : Nat := l.foldl (fun a c => a * 10 + digitVal c) 0

theorem parseDigits_append (l : List Char) (c : Char) :
    parseDigits (l ++ [c]) = parseDigits l * 10 + digitVal c := by
  simp [parseDigits, List.foldl_append]

theorem digitVal_digitChar (m : Nat) (h : m < 10) : digitVal (digitChar m) = m := by
  interval_cases m <;> decide

theorem natDigitsF_spec (fuel n : Nat) (h : n < 10 ^ fuel) :
    parseDigits (natDigitsF (fuel + 1) n) = n := by
  induction fuel generalizing n with
  | zero =>
    have : n = 0 := by omega
    subst this; decide
  | succ f ih =>
    by_cases h10 : n < 10
    · simp only [natDigitsF, if_pos h10]
      show parseDigits [digitChar n] = n
      simp [parseDigits, digitVal_digitChar n h10]
    · have hstep : natDigitsF (f + 1 + 1) n
          = natDigitsF (f + 1) (n / 10) ++ [digitChar (n % 10)] := by
        simp [natDigitsF, h10]
      rw [hstep, parseDigits_append, digitVal_digitChar _ (Nat.mod_lt n (by omega))]
      have hdiv : n / 10 < 10 ^ f := by
        have h1 : n < 10 ^ (f + 1) := h
        have h2 : 10 * (n / 10) ≤ n := Nat.mul_div_le n 10
        have hp : 10 ^ (f + 1) = 10 * 10 ^ f := by ring
        omega
      rw [ih (n / 10) hdiv]
      omega

theorem natStr_injective (m n : Nat) (h : natStr m = natStr n) : m = n := by
  have hm : m < 10 ^ m := Nat.lt_pow_self (by omega) m
  have hn : n < 10 ^ n := Nat.lt_pow_self (by omega) n
  have hdata : natDigitsF (m + 1) m = natDigitsF (n + 1) n := by
    have := congrArg String.data h
    simpa [natStr] using this
  have h1 := natDigitsF_spec m m hm
  have h2 := natDigitsF_spec n n hn
  rw [hdata] at h1
  omega

/-! ### Python `float(...)` on SQLite values -/

/-- A SQLite storage value as seen by the `confidence` column: NULL, a number,
or arbitrary text (SQLite columns are dynamically typed). -/
inductive SqlVal where
  | null : SqlVal
  | num (q : ℚ) : SqlVal
  | text (s : String) : SqlVal
deriving DecidableEq, Repr

/-- Python truthiness of a SQLite value (`None`, `0`, `0.0`, `""` are falsy). -/
def sqlTruthy : SqlVal → Bool
  | .null => false
  | .num q => q ≠ 0
  | .text s => s ≠ ""

/-- Unsigned decimal literal: digits, optionally a dot and more digits.
`"1."` and `".5"` are accepted, `"."` and `""` are not (as in Python). -/
def parseUFloat (l : List Char) : Option ℚ :=
  let intPart := l.takeWhile isDigitC
  let rest := l.dropWhile isDigitC
  match rest with
  | [] => if intPart.isEmpty then none else some (digitsVal intPart : ℚ)
  | '.' :: frac =>
    if frac.all isDigitC && !(intPart.isEmpty && frac.isEmpty) then
      some ((digitsVal intPart : ℚ) + (digitsVal frac : ℚ) / (10 ^ frac.length : ℚ))
    else none
  | _ => none

/-- Model of Python `float(str)` on decimal literals: optional surrounding
whitespace, optional sign, unsigned decimal literal. -/
def pyFloatOfStr (s : String) : Option ℚ :=
  match (pyStrip s).data with
  | '+' :: rest => parseUFloat rest
  | '-' :: rest => (parseUFloat rest).map (fun q => -q)
  | rest => parseUFloat rest

/-- Model of Python `float(v)` on a SQLite value. `none` means the call raises
(`ValueError` on non-numeric text). NULL never reaches `float` in the code
because of the preceding `or 0`. -/
def pyFloatOfSql : SqlVal → Option ℚ
  | .null => none
  | .num q => some q
  | .text s => pyFloatOfStr s

/-- Model of `float(row_value or 0)` as applied to the `confidence` column. -/
def confFloat (v : SqlVal) : Option ℚ :=
  pyFloatOfSql (if sqlTruthy v then v else .num 0)

example : confFloat .null = some 0 := rfl
example (q : ℚ) (h : q ≠ 0) : confFloat (.num q) = some q := by
  simp [confFloat, sqlTruthy, pyFloatOfSql, h]
example : confFloat (.text "abc") = none := rfl

/-! ### `strptime` date and time parsing -/

/-- Greedy one-or-two digit field with a value range, as matched by the
regexes `strptime` uses for `%m`, `%d`, `%H`, `%M`, `%S`: a two-digit match is
tried first (only if its value is within range), then a one-digit match. -/
def parseField2 (l : List Char) (lo hi : Nat) : Option (Nat × List Char) :=
  match l with
  | a :: b :: rest =>
    if isDigitC a && isDigitC b &&
        decide (lo ≤ digitVal a * 10 + digitVal b) &&
        decide (digitVal a * 10 + digitVal b ≤ hi) then
      some (digitVal a * 10 + digitVal b, rest)
    else if isDigitC a && decide (lo ≤ digitVal a) && decide (digitVal a ≤ hi) then
      some (digitVal a, b :: rest)
    else none
  | [a] =>
    if isDigitC a && decide (lo ≤ digitVal a) && decide (digitVal a ≤ hi) then
      some (digitVal a, [])
    else none
  | [] => none

/-- Gregorian leap year. -/
def isLeap (y : Nat) : Bool := (y % 4 = 0 && y % 100 != 0) || y % 400 = 0

/-- Length of a month. -/
def monthLen (y m : Nat) : Nat :=
  if m = 2 then (if isLeap y then 29 else 28)
  else if m = 4 || m = 6 || m = 9 || m = 11 then 30
  else 31

/-- Model of `datetime.strptime(s, "%Y-%m-%d")`: four-digit year, greedy
one-or-two-digit month and day, full-string match, then `datetime`'s own
range validation (year >= 1, day within month). -/
def parseYmd (s : String) : Option (Nat × Nat × Nat) :=
  match s.data with
  | c1 :: c2 :: c3 :: c4 :: '-' :: rest =>
    if isDigitC c1 && isDigitC c2 && isDigitC c3 && isDigitC c4 then
      let y := digitVal c1 * 1000 + digitVal c2 * 100 + digitVal c3 * 10 + digitVal c4
      match parseField2 rest 1 12 with
      | some (m, '-' :: rest2) =>
        match parseField2 rest2 1 31 with
        | some (d, []) =>
          if 1 ≤ y && decide (d ≤ monthLen y m) then some (y, m, d) else none
        | _ => none
      | _ => none
    else none
  | _ => none

/-- Model of the `"%H:%M:%S"` part of `strptime`, applied to a full char list. -/
def parseHms (l : List Char) : Option (Nat × Nat × Nat) :=
  match parseField2 l 0 23 with
  | some (h, ':' :: r1) =>
    match parseField2 r1 0 59 with
    | some (mi, ':' :: r2) =>
      match parseField2 r2 0 59 with
      | some (sec, []) => some (h, mi, sec)
      | _ => none
    | _ => none
  | _ => none

example : parseYmd "2024-01-15" = some (2024, 1, 15) := by decide
example : parseYmd "2024-1-5" = some (2024, 1, 5) := by decide
example : parseYmd "2023-02-29" = none := by decide
example : parseYmd "zzz" = none := by decide
example : parseYmd "" = none := by decide
example : parseHms "23:59:59".data = some (23, 59, 59) := by decide
example : parseHms "99:99:99".data = none := by decide

/-- Drop trailing Python whitespace. -/
def rstripChars (l : List Char) : List Char := (l.reverse.dropWhile isPySpace).reverse

/-- Date parsing as it happens when the code appends `" 23:59:59"` (or
`" " + time_part`) and runs `strptime` with format `"%Y-%m-%d %H:%M:%S"`:
the format's space is compiled to the regex `\s+`, which absorbs any
trailing whitespace run of the date part together with the appended space.
So the date part parses iff it is a valid date followed by (possibly empty)
trailing whitespace. -/
def parseYmdWs (s : String) : Option (Nat × Nat × Nat) :=
  parseYmd (String.mk (rstripChars s.data))

example : parseYmdWs "2024-01-15 " = some (2024, 1, 15) := by decide
example : parseYmd "2024-01-15 " = none := by decide
example : parseYmdWs "zzz " = none := by decide

/-! ### Epoch conversions (proleptic Gregorian, UTC) -/

/-- Days before month `m` within year `y`. -/
def daysBeforeMonth (y m : Nat) : Nat :=
  (List.range (m - 1)).foldl (fun a i => a + monthLen y (i + 1)) 0

/-- Days since 0001-01-01 (0-based) of a valid Gregorian date. -/
def ordinalOfYmd (y m d : Nat) : Nat :=
  let py := y - 1
  365 * py + py / 4 - py / 100 + py / 400 + daysBeforeMonth y m + (d - 1)

/-- Days since the Unix epoch of a valid Gregorian date. -/
def epochDaysOfYmd (y m d : Nat) : Int := (ordinalOfYmd y m d : Int) - 719162

/-- Epoch seconds of a date-time (UTC model of naive `datetime.timestamp()`). -/
def epochOfYmdHms (y m d h mi s : Nat) : Int :=
  epochDaysOfYmd y m d * 86400 + (h * 3600 + mi * 60 + s : Nat)

example : epochDaysOfYmd 1970 1 1 = 0 := by decide
example : epochOfYmdHms 2023 11 14 22 13 20 = 1700000000 := by decide

/-- Civil date from days since the Unix epoch (Howard Hinnant's algorithm,
using floor division; valid for all days of the proleptic calendar). -/
def civilFromDays (z : Int) : Nat × Nat × Nat :=
  let zs := z + 719468
  let era := Int.ediv zs 146097
  let doe := (zs - era * 146097).toNat
  let yoe := (doe - doe / 1460 + doe / 36524 - doe / 146096) / 365
  let doy := doe - (365 * yoe + yoe / 4 - yoe / 100)
  let mp := (5 * doy + 2) / 153
  let d := doy - (153 * mp + 2) / 5 + 1
  let m := if mp < 10 then mp + 3 else mp - 9
  let y := (yoe : Int) + era * 400 + (if m ≤ 2 then 1 else 0)
  (y.toNat, m, d)

/-- Zero-padded two-digit field (`strftime`). -/
def pad2 (n : Nat) : String := if n < 10 then "0" ++ natStr n else natStr n

/-- Zero-padded four-digit year (`strftime`). -/
def pad4 (n : Nat) : String :=
  if n < 10 then "000" ++ natStr n
  else if n < 100 then "00" ++ natStr n
  else if n < 1000 then "0" ++ natStr n
  else natStr n

/-- `strftime("%Y-%m-%dT%H:%M:%SZ")`. -/
def fmtTs (y m d h mi s : Nat) : String :=
  pad4 y ++ "-" ++ pad2 m ++ "-" ++ pad2 d ++ "T" ++ pad2 h ++ ":" ++ pad2 mi ++
    ":" ++ pad2 s ++ "Z"

/-- `strftime("%Y-%m-%d")`. -/
def fmtYmd (y m d : Nat) : String := pad4 y ++ "-" ++ pad2 m ++ "-" ++ pad2 d

/-- Model of `datetime.utcfromtimestamp(t).strftime("%Y-%m-%dT%H:%M:%SZ")`. -/
def isoOfEpoch (t : Int) : String :=
  let days := Int.ediv t 86400
  let secs := (t - days * 86400).toNat
  let ymd := civilFromDays days
  fmtTs ymd.1 ymd.2.1 ymd.2.2 (secs / 3600) (secs % 3600 / 60) (secs % 60)

example : isoOfEpoch 1700000000 = "2023-11-14T22:13:20Z" := by decide
example : isoOfEpoch 0 = "1970-01-01T00:00:00Z" := by decide

/-! ### Order helpers for SQL `ORDER BY` -/

theorem charsLe_antisymm (a b : List Char) (h1 : charsLe a b = true)
    (h2 : charsLe b a = true) : a = b := by
  induction a generalizing b with
  | nil => cases b with
    | nil => rfl
    | cons y bs => simp [charsLe] at h2
  | cons x as ih =>
    cases b with
    | nil => simp [charsLe] at h1
    | cons y bs =>
      rw [charsLe_cons] at h1 h2
      have hxy : x.toNat = y.toNat := by omega
      have hx : x = y := Char.eq_of_val_eq (UInt32.toNat.inj hxy)
      have hrec : charsLe as bs = true := by
        rcases h1 with h1 | ⟨_, h1⟩
        · omega
        · exact h1
      have hrec2 : charsLe bs as = true := by
        rcases h2 with h2 | ⟨_, h2⟩
        · omega
        · exact h2
      rw [hx, ih bs hrec hrec2]

theorem strLe_antisymm (a b : String) (h1 : strLe a b = true) (h2 : strLe b a = true) :
    a = b := by
  have := charsLe_antisymm a.data b.data h1 h2
  cases a; cases b; simp only at this; subst this; rfl

/-- SQLite ordering on a nullable text column: NULL sorts before any string. -/
def optStrLe : Option String → Option String → Bool
  | none, _ => true
  | some _, none => false
  | some a, some b => strLe a b

theorem optStrLe_total (a b : Option String) : optStrLe a b = true ∨ optStrLe b a = true := by
  cases a with
  | none => left; rfl
  | some x => cases b with
    | none => right; rfl
    | some y => exact strLe_total x y

theorem optStrLe_trans (a b c : Option String) (h1 : optStrLe a b = true)
    (h2 : optStrLe b c = true) : optStrLe a c = true := by
  cases a with
  | none => rfl
  | some x =>
    cases b with
    | none => simp [optStrLe] at h1
    | some y =>
      cases c with
      | none => simp [optStrLe] at h2
      | some z => exact strLe_trans x y z h1 h2

theorem optStrLe_antisymm (a b : Option String) (h1 : optStrLe a b = true)
    (h2 : optStrLe b a = true) : a = b := by
  cases a with
  | none => cases b with
    | none => rfl
    | some y => simp [optStrLe] at h2
  | some x =>
    cases b with
    | none => simp [optStrLe] at h1
    | some y => rw [strLe_antisymm x y h1 h2]

/-- Ordering on a `(date, time)` pair of nullable text columns, as produced by
`ORDER BY date, time` (ascending form; the sort relations below reverse it). -/
def notePairLe (a b : Option String × Option String) : Bool :=
  if a.1 = b.1 then optStrLe a.2 b.2 else optStrLe a.1 b.1

theorem notePairLe_total (a b : Option String × Option String) :
    notePairLe a b = true ∨ notePairLe b a = true := by
  by_cases h : a.1 = b.1
  · simp only [notePairLe, h, if_pos rfl, if_true]
    simpa [h] using optStrLe_total a.2 b.2
  · have h2 : ¬ b.1 = a.1 := fun hh => h hh.symm
    simp only [notePairLe, if_neg h, if_neg h2]
    exact optStrLe_total a.1 b.1

theorem notePairLe_trans (a b c : Option String × Option String)
    (h1 : notePairLe a b = true) (h2 : notePairLe b c = true) :
    notePairLe a c = true := by
  by_cases hab : a.1 = b.1
  · by_cases hbc : b.1 = c.1
    · have hac : a.1 = c.1 := hab.trans hbc
      simp only [notePairLe, if_pos hab] at h1
      simp only [notePairLe, if_pos hbc] at h2
      simp only [notePairLe, if_pos hac]
      exact optStrLe_trans _ _ _ h1 h2
    · have hac : ¬ a.1 = c.1 := by rw [hab]; exact hbc
      simp only [notePairLe, if_neg hbc] at h2
      simp only [notePairLe, if_neg hac]
      rw [hab]; exact h2
  · by_cases hbc : b.1 = c.1
    · have hac : ¬ a.1 = c.1 := by rw [← hbc]; exact hab
      simp only [notePairLe, if_neg hab] at h1
      simp only [notePairLe, if_neg hac]
      rw [← hbc]; exact h1
    · simp only [notePairLe, if_neg hab] at h1
      simp only [notePairLe, if_neg hbc] at h2
      by_cases hac : a.1 = c.1
      · exfalso
        have : a.1 = b.1 := by
          apply optStrLe_antisymm _ _ h1
          rw [← hac] at h2; exact h2
        exact hab this
      · simp only [notePairLe, if_neg hac]
        exact optStrLe_trans _ _ _ h1 h2

/-- SQLite ordering on a nullable integer column: NULL sorts before numbers. -/
def optIntLe : Option Int → Option Int → Bool
  | none, _ => true
  | some _, none => false
  | some a, some b => decide (a ≤ b)

theorem optIntLe_total (a b : Option Int) : optIntLe a b = true ∨ optIntLe b a = true := by
  cases a with
  | none => left; rfl
  | some x => cases b with
    | none => right; rfl
    | some y => simp [optIntLe]; omega

theorem optIntLe_trans (a b c : Option Int) (h1 : optIntLe a b = true)
    (h2 : optIntLe b c = true) : optIntLe a c = true := by
  cases a with
  | none => rfl
  | some x =>
    cases b with
    | none => simp [optIntLe] at h1
    | some y =>
      cases c with
      | none => simp [optIntLe] at h2
      | some z => simp [optIntLe] at h1 h2 ⊢; omega

/-! ### SQL `LIKE` -/

/-- SQLite `LIKE`, ASCII case-insensitive, with `%` and `_` wildcards.
Fuel-based so that it reduces in the kernel; `pattern.length + s.length + 1`
fuel always suffices. -/
def likeMatchF : Nat → List Char → List Char → Bool
  | 0, _, _ => false
  | _ + 1, [], [] => true
  | _ + 1, [], _ :: _ => false
  | fuel + 1, '%' :: ps, s =>
    likeMatchF fuel ps s ||
      (match s with
       | [] => false
       | _ :: s2 => likeMatchF fuel ('%' :: ps) s2)
  | _ + 1, '_' :: _, [] => false
  | fuel + 1, '_' :: ps, _ :: s => likeMatchF fuel ps s
  | _ + 1, _ :: _, [] => false
  | fuel + 1, p :: ps, c :: s => (lowerC p = lowerC c) && likeMatchF fuel ps s

/-- `value LIKE '%' || needle || '%'` on a nullable text column (NULL gives
SQL NULL, i.e. the row does not pass). -/
def sqlLikeContains (needle : String) (value : Option String) : Bool :=
  match value with
  | none => false
  | some v =>
    let pat := '%' :: (needle.data ++ ['%'])
    likeMatchF (pat.length + v.data.length + 1) pat v.data

example : sqlLikeContains "ous" (some "Carduelis tristis") = false := rfl
example : sqlLikeContains "cardu" (some "Carduelis tristis") = true := rfl

/-! ### Generic list helpers -/

/-- Run a fallible conversion over a list, stopping at the first error: models
a Python loop that appends to an output list and may raise. -/
def mapME {ε α β : Type} (f : α → Except ε β) : List α → Except ε (List β)
  | [] => .ok []
  | a :: l => do
    let b ← f a
    let bs ← mapME f l
    pure (b :: bs)

theorem mapME_length {ε α β : Type} (f : α → Except ε β) (l : List α) (out : List β)
    (h : mapME f l = .ok out) : out.length = l.length := by
  induction l generalizing out with
  | nil => simp [mapME] at h; simp [← h]
  | cons a l ih =>
    simp only [mapME, bind, Except.bind] at h
    cases hf : f a with
    | error e => rw [hf] at h; simp at h
    | ok b =>
      rw [hf] at h
      cases hm : mapME f l with
      | error e => rw [hm] at h; simp at h
      | ok bs =>
        rw [hm] at h
        simp only [pure, Except.pure, Except.ok.injEq] at h
        subst h
        simp [ih bs hm]

theorem mapME_mem {ε α β : Type} (f : α → Except ε β) (l : List α) (out : List β)
    (h : mapME f l = .ok out) (r : β) (hr : r ∈ out) : ∃ a ∈ l, f a = .ok r := by
  induction l generalizing out with
  | nil =>
    simp [mapME] at h
    subst h
    simp at hr
  | cons a l ih =>
    simp only [mapME, bind, Except.bind] at h
    cases hf : f a with
    | error e => rw [hf] at h; simp at h
    | ok b =>
      rw [hf] at h
      cases hm : mapME f l with
      | error e => rw [hm] at h; simp at h
      | ok bs =>
        rw [hm] at h
        simp only [pure, Except.pure, Except.ok.injEq] at h
        subst h
        rcases List.mem_cons.mp hr with hb | hb
        · exact ⟨a, List.mem_cons_self a l, by rw [hf, hb]⟩
        · obtain ⟨x, hx, hfx⟩ := ih bs hm hb
          exact ⟨x, List.mem_cons_of_mem a hx, hfx⟩

theorem mapME_map {ε α β : Type} (f : α → Except ε β) (l : List α) (out : List β)
    (h : mapME f l = .ok out) (g : β → α → Prop)
    (hg : ∀ a b, f a = .ok b → g b a) :
    List.Forall₂ g out l := by
  induction l generalizing out with
  | nil => simp [mapME] at h; subst h; constructor
  | cons a l ih =>
    simp only [mapME, bind, Except.bind] at h
    cases hf : f a with
    | error e => rw [hf] at h; simp at h
    | ok b =>
      rw [hf] at h
      cases hm : mapME f l with
      | error e => rw [hm] at h; simp at h
      | ok bs =>
        rw [hm] at h
        simp only [pure, Except.pure, Except.ok.injEq] at h
        subst h
        exact List.Forall₂.cons (hg a b hf) (ih bs hm)

/-- Maximum of a list of naturals, `0` when empty: models
`SELECT COALESCE(MAX(id), 0)`. -/
def natListMax (l : List Nat) : Nat := l.foldr max 0

theorem le_natListMax (l : List Nat) (x : Nat) (hx : x ∈ l) : x ≤ natListMax l := by
  induction l with
  | nil => simp at hx
  | cons a l ih =>
    rcases List.mem_cons.mp hx with h | h
    · subst h; simp [natListMax]
    · have := ih h
      simp only [natListMax, List.foldr_cons]
      exact le_max_of_le_right this

/-- `LIMIT min(limit, 500)` semantics: in SQLite a negative limit means
no limit at all. -/
def applyLimit {α : Type} (limit : Int) (l : List α) : List α :=
  let eff := min limit 500
  if eff < 0 then l else l.take eff.toNat

theorem applyLimit_sublist {α : Type} (limit : Int) (l : List α) :
    (applyLimit limit l).Sublist l := by
  unfold applyLimit
  by_cases h : min limit 500 < 0
  · simp [h]
  · simp [h]
    exact List.take_sublist _ l

theorem applyLimit_length_le {α : Type} (limit : Int) (l : List α) (h : 0 ≤ limit) :
    (applyLimit limit l).length ≤ 500 := by
  unfold applyLimit
  have h1 : ¬ min limit 500 < 0 := by omega
  simp only [h1, if_false]
  have h2 : (min limit 500).toNat ≤ 500 := by omega
  calc (l.take (min limit 500).toNat).length ≤ (min limit 500).toNat :=
        (List.length_take _ _).le.trans (by simp)
  _ ≤ 500 := h2

/-! ### Data model: the two database layouts (`db.py`) -/

/-- A row of the legacy `notes` table. Text columns are nullable;
`confidence` is dynamically typed (see `SqlVal`). -/
structure NoteRow where
  id : Nat
  date : Option String
  time : Option String
  scientific_name : Option String
  common_name : Option String
  confidence : SqlVal
  clip_name : Option String
deriving DecidableEq, Repr

/-- A row of the v2 `detections` table. -/
structure DetRow where
  id : Nat
  detected_at : Option Int
  confidence : SqlVal
  clip_name : Option String
  label_id : Nat
deriving DecidableEq, Repr

/-- A row of the v2 `labels` table. -/
structure LabelRow where
  id : Nat
  scientific_name : Option String
deriving DecidableEq, Repr

/-- A SQLite database file: each table is present (`some rows`) or absent. -/
structure DB where
  detections : Option (List DetRow)
  labels : Option (List LabelRow)
  notes : Option (List NoteRow)
deriving Repr

/-- Errors raised by the data-access layer. `schemaError` is `db.SchemaError`;
`operationalError` is `sqlite3.OperationalError` (e.g. a missing table);
`valueError` is Python `ValueError` (e.g. `float` on non-numeric text). -/
inductive DbError where
  | schemaError (msg : String) : DbError
  | operationalError (msg : String) : DbError
  | valueError (msg : String) : DbError
deriving DecidableEq, Repr

/-- The canonical detection record (the JSON shape both dialects emit). -/
structure DetRecord where
  id : String
  timestamp : String
  common_name : String
  scientific_name : String
  confidence : ℚ
  audio_path : String
deriving DecidableEq, Repr

/-- A species aggregate row (the JSON shape of `/api/stats`). -/
structure SpeciesAgg where
  common_name : String
  scientific_name : String
  count : Nat
deriving DecidableEq, Repr

/-- `db.detect_schema`: `'v2'` when both `detections` and `labels` exist,
else `'legacy'` when `notes` exists, else `'unknown'`. -/
def detect_schema (db : DB) : String :=
  if db.detections.isSome && db.labels.isSome then "v2"
  else if db.notes.isSome then "legacy"
  else "unknown"

/-- `None`-to-empty-string coercion (`x or ""`). -/
def optStr (o : Option String) : String := o.getD ""

/-- Python truthiness of an optional string parameter (`if date_start:`). -/
def isGiven (o : Option String) : Bool :=
  match o with
  | none => false
  | some s => s ≠ ""

/-- SQL condition `column >= bound` on a nullable text column, applied only
when the bound is truthy; a NULL column value never passes. -/
def condGe (bound : Option String) (v : Option String) : Bool :=
  match bound with
  | none => true
  | some b =>
    if b = "" then true
    else match v with
      | none => false
      | some x => strLe b x

/-- SQL condition `column <= bound` on a nullable text column. -/
def condLe (bound : Option String) (v : Option String) : Bool :=
  match bound with
  | none => true
  | some b =>
    if b = "" then true
    else match v with
      | none => false
      | some x => strLe x b

/-- `db._parse_legacy_datetime`: build an ISO timestamp from the legacy
`date` and `time` text fields, falling back to `{date}T00:00:00Z` when
`strptime` raises. When a time is present the code parses
`f"{date_str} {time_part}"` with format `"%Y-%m-%d %H:%M:%S"`, whose
format-space absorbs trailing whitespace of the date (`parseYmdWs`); with
no time the bare `"%Y-%m-%d"` parse is exact. -/
def legacyTimestamp (dateStr timeStr : String) : String :=
  if dateStr = "" then ""
  else
    let parsed : Option (Nat × Nat × Nat × Nat × Nat × Nat) :=
      if timeStr ≠ "" then
        match parseYmdWs dateStr, parseHms ((pyStrip timeStr).data.take 8) with
        | some (y, m, d), some (h, mi, s) => some (y, m, d, h, mi, s)
        | _, _ => none
      else
        match parseYmd dateStr with
        | some (y, m, d) => some (y, m, d, 0, 0, 0)
        | none => none
    match parsed with
    | some (y, m, d, h, mi, s) => fmtTs y m d h mi s
    | none => dateStr ++ "T00:00:00Z"

example : legacyTimestamp "2024-01-15" "12:30:00.123" = "2024-01-15T12:30:00Z" := rfl
example : legacyTimestamp "2024-01-15" "" = "2024-01-15T00:00:00Z" := rfl
example : legacyTimestamp "garbage" "12:30:00" = "garbageT00:00:00Z" := rfl
example : legacyTimestamp "" "12:30:00" = "" := rfl

/-- Row filter of the legacy `notes` query (`WHERE` clause of
`get_detections_legacy`). -/
def noteFilter (ds de cn : Option String) (after : Option Nat) (r : NoteRow) : Bool :=
  condGe ds r.date && condLe de r.date &&
    (match cn with
     | none => true
     | some c =>
       if c = "" then true
       else sqlLikeContains c r.common_name || sqlLikeContains c r.scientific_name) &&
    (match after with
     | none => true
     | some a => decide (a < r.id))

/-- `ORDER BY date DESC, time DESC` as a sort relation: `a` comes before `b`
when `b`'s `(date, time)` key is at most `a`'s. -/
def noteRel (a b : NoteRow) : Prop :=
  notePairLe (b.date, b.time) (a.date, a.time) = true

instance noteRelDec : DecidableRel noteRel := fun a b => by
  unfold noteRel; infer_instance

/-- Conversion of one legacy row to the canonical record; `float` on a
non-numeric text confidence raises. -/
def noteToRecord (r : NoteRow) : Except DbError DetRecord :=
  match confFloat r.confidence with
  | none => .error (.valueError "could not convert string to float")
  | some q =>
    .ok
      { id := natStr r.id
        timestamp := legacyTimestamp (optStr r.date) (optStr r.time)
        common_name :=
          if pyStrip (optStr r.common_name) = "" then optStr r.scientific_name
          else pyStrip (optStr r.common_name)
        scientific_name := pyStrip (optStr r.scientific_name)
        confidence := q
        audio_path := optStr r.clip_name }

/-- `db.get_detections_legacy`. -/
def get_detections_legacy (db : DB) (ds de cn : Option String) (limit : Int)
    (after : Option Nat) : Except DbError (List DetRecord) :=
  match db.notes with
  | none => .error (.operationalError "no such table: notes")
  | some rows =>
    mapME noteToRecord
      (applyLimit limit
        (List.insertionSort noteRel (rows.filter (noteFilter ds de cn after))))

/-- The epoch lower bound `get_detections_v2` derives from `date_start`
(`None` when the parameter is absent, empty or fails `strptime`). -/
def v2StartTs (ds : Option String) : Option Int :=
  match ds with
  | none => none
  | some s =>
    if s = "" then none
    else match parseYmd s with
      | some (y, m, d) => some (epochOfYmdHms y m d 0 0 0)
      | none => none

/-- The epoch upper bound derived from `date_end` (`23:59:59` of that day).
The code parses `date_end + " 23:59:59"`, so — unlike `date_start` — a
`date_end` that is a valid date plus trailing whitespace still yields a
bound (see `parseYmdWs`). -/
def v2EndTs (de : Option String) : Option Int :=
  match de with
  | none => none
  | some s =>
    if s = "" then none
    else match parseYmdWs s with
      | some (y, m, d) => some (epochOfYmdHms y m d 23 59 59)
      | none => none

/-- `JOIN labels l ON l.id = d.label_id` over the v2 tables. Only reached
after the schema check guarantees both tables exist. `labels.id` is the
table's primary key, so at most one label matches each detection. -/
def v2Joined (db : DB) : List (DetRow × LabelRow) :=
  match db.detections, db.labels with
  | some dets, some labs =>
    dets.filterMap (fun d =>
      (labs.find? (fun l => decide (l.id = d.label_id))).map (fun l => (d, l)))
  | _, _ => []

/-- Row filter of the v2 query (`WHERE` clause of `get_detections_v2`). -/
def detFilter (startTs endTs : Option Int) (cn : Option String) (after : Option Nat)
    (p : DetRow × LabelRow) : Bool :=
  (match startTs with
   | none => true
   | some t =>
     match p.1.detected_at with
     | none => false
     | some v => decide (t ≤ v)) &&
  (match endTs with
   | none => true
   | some t =>
     match p.1.detected_at with
     | none => false
     | some v => decide (v ≤ t)) &&
  (match cn with
   | none => true
   | some c => if c = "" then true else sqlLikeContains c p.2.scientific_name) &&
  (match after with
   | none => true
   | some a => decide (a < p.1.id))

/-- `ORDER BY d.detected_at DESC` as a sort relation. -/
def detRel (a b : DetRow × LabelRow) : Prop :=
  optIntLe b.1.detected_at a.1.detected_at = true

instance detRelDec : DecidableRel detRel := fun a b => by
  unfold detRel; infer_instance

/-- Conversion of one joined v2 row to the canonical record. -/
def v2ToRecord (p : DetRow × LabelRow) : Except DbError DetRecord :=
  match confFloat p.1.confidence with
  | none => .error (.valueError "could not convert string to float")
  | some q =>
    .ok
      { id := natStr p.1.id
        timestamp :=
          match p.1.detected_at with
          | some t => isoOfEpoch t
          | none => ""
        common_name := optStr p.2.scientific_name
        scientific_name := optStr p.2.scientific_name
        confidence := q
        audio_path := optStr p.1.clip_name }

/-- `db.get_detections_v2`: dispatch on the detected schema, then run the
dialect query. -/
def get_detections_v2 (db : DB) (ds de cn : Option String) (limit : Int)
    (after : Option Nat) : Except DbError (List DetRecord) :=
  if detect_schema db = "legacy" then get_detections_legacy db ds de cn limit after
  else if detect_schema db ≠ "v2" then
    .error (.schemaError "Database schema is not v2 (detections+labels) nor legacy (notes).")
  else
    mapME v2ToRecord
      (applyLimit limit
        (List.insertionSort detRel
          ((v2Joined db).filter (detFilter (v2StartTs ds) (v2EndTs de) cn after))))

/-! ### Stats queries -/

/-- SQLite `MAX` over a nullable text column: ignores NULLs, NULL when all
values are NULL. -/
def sqlMaxStr (l : List (Option String)) : Option String :=
  l.foldl
    (fun acc v =>
      match acc, v with
      | none, v => v
      | some a, none => some a
      | some a, some b => if strLe a b then some b else some a)
    none

/-- `ORDER BY count DESC` as a sort relation on aggregates. -/
def statRel (a b : SpeciesAgg) : Prop := b.count ≤ a.count

instance statRelDec : DecidableRel statRel := fun a b => by
  unfold statRel; infer_instance

/-- `WHERE` clause of `get_stats_legacy` (the date-range conditions). -/
def statsNoteFilter (ds de : Option String) (r : NoteRow) : Bool :=
  condGe ds r.date && condLe de r.date

/-- `WHERE` clause of the v2 branch of `get_stats_v2`. -/
def statsDetFilter (ds de : Option String) (p : DetRow × LabelRow) : Bool :=
  (match v2StartTs ds with
   | none => true
   | some t =>
     match p.1.detected_at with
     | none => false
     | some v => decide (t ≤ v)) &&
  (match v2EndTs de with
   | none => true
   | some t =>
     match p.1.detected_at with
     | none => false
     | some v => decide (v ≤ t))

/-- `db.get_stats_legacy`: species counts grouped by `scientific_name`. -/
def get_stats_legacy (db : DB) (ds de : Option String) :
    Except DbError (List SpeciesAgg) :=
  match db.notes with
  | none => .error (.operationalError "no such table: notes")
  | some rows =>
    let sel := rows.filter (statsNoteFilter ds de)
    let keys := sel.map (fun r => r.scientific_name)
    let aggs := keys.dedup.map (fun k =>
      let grp := sel.filter (fun r => decide (r.scientific_name = k))
      let maxCommon := sqlMaxStr (grp.map (fun r => r.common_name))
      { common_name := if optStr maxCommon = "" then optStr k else optStr maxCommon
        scientific_name := optStr k
        count := keys.countP (fun x => decide (x = k)) : SpeciesAgg })
    .ok (List.insertionSort statRel aggs)

/-- `db.get_stats_v2`. -/
def get_stats_v2 (db : DB) (ds de : Option String) :
    Except DbError (List SpeciesAgg) :=
  if detect_schema db = "legacy" then get_stats_legacy db ds de
  else if detect_schema db ≠ "v2" then
    .error (.schemaError "Database schema is not v2 (detections+labels) nor legacy (notes).")
  else
    let sel := (v2Joined db).filter (statsDetFilter ds de)
    let keys := sel.map (fun p => p.2.scientific_name)
    let aggs := keys.dedup.map (fun k =>
      { common_name := optStr k
        scientific_name := optStr k
        count := keys.countP (fun x => decide (x = k)) : SpeciesAgg })
    .ok (List.insertionSort statRel aggs)

/-- `db.get_max_detection_id`: reads `notes` under the legacy classification
and `detections` otherwise (including the `unknown` classification, where the
`detections` table may be missing). -/
def get_max_detection_id (db : DB) : Except DbError Nat :=
  if detect_schema db = "legacy" then
    match db.notes with
    | none => .error (.operationalError "no such table: notes")
    | some rows => .ok (natListMax (rows.map (fun r => r.id)))
  else
    match db.detections with
    | none => .error (.operationalError "no such table: detections")
    | some rows => .ok (natListMax (rows.map (fun r => r.id)))

/-! ### HTTP layer: `app._parse_date_range` -/

/-- ISO weekday (Monday = 1 … Sunday = 7) of a day count since the Unix
epoch; 1970-01-01 was a Thursday. -/
def isoweekdayOfDays (z : Int) : Int := (z + 3) % 7 + 1

/-- `date.strftime("%Y-%m-%d")` of a day count since the Unix epoch. -/
def fmtDays (z : Int) : String :=
  let c := civilFromDays z
  fmtYmd c.1 c.2.1 c.2.2

example : isoweekdayOfDays 0 = 4 := by decide
example : fmtDays 0 = "1970-01-01" := rfl

/-- `app._parse_date_range`: when `period` (stripped, lower-cased) equals
`"week"`, return Monday of the current week and today, overriding the
explicit dates; otherwise pass the explicit dates through. `todayDays` is
the fixture clock (days since the epoch of `datetime.now().date()`). -/
def parse_date_range (period ds de : Option String) (todayDays : Int) :
    Option String × Option String :=
  if lowerStr (pyStrip (optStr period)) ≠ "week" then (ds, de)
  else
    let wd := isoweekdayOfDays todayDays
    let monday := todayDays - (wd - 1)
    (some (fmtDays monday), some (fmtDays todayDays))

/-! ### MQTT polling bridge (`mqtt_bridge.py`) -/

/-- The JSON payload published per detection (`_publish_detection`): the
canonical record minus `audio_path`. -/
structure MqttPayload where
  id : String
  timestamp : String
  common_name : String
  scientific_name : String
  confidence : ℚ
deriving DecidableEq, Repr

/-- Build the publish payload from a canonical record. -/
def payloadOf (d : DetRecord) : MqttPayload :=
  { id := d.id
    timestamp := d.timestamp
    common_name := d.common_name
    scientific_name := d.scientific_name
    confidence := d.confidence }

/-- Bridge state: the watermark `_last_max_id` plus the history of messages
published so far (in publish order). -/
structure BridgeState where
  lastMaxId : Nat
  published : List MqttPayload
deriving Repr

/-- One iteration of the `run_bridge` polling loop: read the current max id;
if it is not above the watermark do nothing; otherwise fetch
`limit=500, after_id=watermark`, publish every returned record, and advance
the watermark to the current max id read first. An exception ends the
bridge (`Except.error`).

The max-id read and the batch fetch are two separate SQL statements on one
connection with no transaction, against a database owned by an external
writer, so each statement sees its own snapshot: `dbMax` is the state the
max-id read sees and `dbFetch` the (possibly later) state the fetch sees.
A quiescent cycle has `dbMax = dbFetch`. Each single statement is atomic,
and schema changes between statements are out of scope (the spec excludes
concurrent schema modification). -/
def pollCycle (dbMax dbFetch : DB) (s : BridgeState) : Except DbError BridgeState := do
  let currentMax ← get_max_detection_id dbMax
  if currentMax ≤ s.lastMaxId then pure s
  else do
    let items ← get_detections_v2 dbFetch none none none 500 (some s.lastMaxId)
    pure { lastMaxId := currentMax
           published := s.published ++ items.map payloadOf }

/-- A run of consecutive poll cycles; each cycle's pair gives the snapshots
its two statements see (the bridge re-opens the connection every cycle, and
the external writer may commit at any point). -/
def runCycles : List (DB × DB) → BridgeState → Except DbError BridgeState
  | [], s => .ok s
  | d :: ds, s => do
    let s2 ← pollCycle d.1 d.2 s
    runCycles ds s2

/-! ### Shared lemmas -/

instance : IsTotal NoteRow noteRel :=
  ⟨fun a b => notePairLe_total (b.date, b.time) (a.date, a.time)⟩

instance : IsTrans NoteRow noteRel :=
  ⟨fun _ _ _ h1 h2 => notePairLe_trans _ _ _ h2 h1⟩

instance : IsTotal (DetRow × LabelRow) detRel :=
  ⟨fun a b => optIntLe_total b.1.detected_at a.1.detected_at⟩

instance : IsTrans (DetRow × LabelRow) detRel :=
  ⟨fun _ _ _ h1 h2 => optIntLe_trans _ _ _ h2 h1⟩

instance : IsTotal SpeciesAgg statRel := ⟨fun a b => Nat.le_total b.count a.count⟩

instance : IsTrans SpeciesAgg statRel := ⟨fun _ _ _ h1 h2 => le_trans h2 h1⟩

theorem schema_v2_tables (db : DB) (hv : detect_schema db = "v2") :
    db.detections.isSome = true ∧ db.labels.isSome = true := by
  unfold detect_schema at hv
  by_cases h : db.detections.isSome && db.labels.isSome
  · simpa using h
  · exfalso
    rw [if_neg h] at hv
    by_cases h2 : db.notes.isSome
    · simp [h2] at hv
    · simp [h2] at hv

theorem schema_legacy_notes (db : DB) (hl : detect_schema db = "legacy") :
    db.notes.isSome = true := by
  unfold detect_schema at hl
  by_cases h : db.detections.isSome && db.labels.isSome
  · simp [h] at hl
  · rw [if_neg h] at hl
    by_cases h2 : db.notes.isSome
    · exact h2
    · simp [h2] at hl

theorem schema_v2_not_legacy (db : DB) (hv : detect_schema db = "v2") :
    ¬ detect_schema db = "legacy" := by
  rw [hv]; decide

/-- `parseYmd` only succeeds on nonempty strings. -/
theorem parseYmd_ne_empty (s : String) (y m d : Nat) (h : parseYmd s = some (y, m, d)) :
    s ≠ "" := by
  intro he
  subst he
  simp [parseYmd] at h

/-- The remainder a field parse leaves is a suffix of its input. -/
theorem parseField2_suffix (l : List Char) (lo hi v : Nat) (r : List Char)
    (h : parseField2 l lo hi = some (v, r)) : ∃ pre, l = pre ++ r := by
  cases l with
  | nil => simp [parseField2] at h
  | cons a l2 =>
    cases l2 with
    | nil =>
      simp only [parseField2] at h
      split at h
      · simp only [Option.some.injEq, Prod.mk.injEq] at h
        exact ⟨[a], by simp [← h.2]⟩
      · simp at h
    | cons b rest =>
      simp only [parseField2] at h
      split at h
      · simp only [Option.some.injEq, Prod.mk.injEq] at h
        exact ⟨[a, b], by simp [← h.2]⟩
      · split at h
        · simp only [Option.some.injEq, Prod.mk.injEq] at h
          exact ⟨[a], by simp [← h.2]⟩
        · simp at h

/-- A field parse that consumes its whole input ends on a digit. -/
theorem parseField2_last_digit (l : List Char) (lo hi v : Nat)
    (h : parseField2 l lo hi = some (v, [])) :
    ∃ l0 c, l = l0 ++ [c] ∧ isDigitC c = true := by
  cases l with
  | nil => simp [parseField2] at h
  | cons a l2 =>
    cases l2 with
    | nil =>
      simp only [parseField2] at h
      split at h
      · rename_i hcond
        simp only [Bool.and_eq_true] at hcond
        exact ⟨[], a, rfl, hcond.1.1⟩
      · simp at h
    | cons b rest =>
      simp only [parseField2] at h
      split at h
      · rename_i hcond
        simp only [Bool.and_eq_true] at hcond
        simp only [Option.some.injEq, Prod.mk.injEq] at h
        exact ⟨[a], b, by simp [← h.2], hcond.1.1.2⟩
      · split at h
        · simp only [Option.some.injEq, Prod.mk.injEq] at h
          simp at h
        · simp at h

theorem isPySpace_of_digit (c : Char) (h : isDigitC c = true) : isPySpace c = false := by
  have h48 : 48 ≤ c.toNat ∧ c.toNat ≤ 57 := by
    simpa [isDigitC, Bool.and_eq_true, decide_eq_true_eq] using h
  simp only [isPySpace, Bool.or_eq_false_iff, Bool.and_eq_false_iff,
    decide_eq_false_iff_not]
  omega

/-- A string `parseYmd` accepts ends on a digit. -/
theorem parseYmd_last_digit (s : String) (y m d : Nat) (h : parseYmd s = some (y, m, d)) :
    ∃ l0 c, s.data = l0 ++ [c] ∧ isDigitC c = true := by
  unfold parseYmd at h
  split at h
  · rename_i c1 c2 c3 c4 rest heq
    split at h
    · cases hm : parseField2 rest 1 12 with
      | none => rw [hm] at h; simp at h
      | some pr =>
        rw [hm] at h
        obtain ⟨m2, r1⟩ := pr
        cases r1 with
        | nil => simp at h
        | cons x rest2 =>
          split at h
          · rename_i m3 rest3 hpat
            simp only [Option.some.injEq, Prod.mk.injEq, List.cons.injEq] at hpat
            cases hd2 : parseField2 rest3 1 31 with
            | none => rw [hd2] at h; simp at h
            | some pr2 =>
              rw [hd2] at h
              obtain ⟨d2, r2⟩ := pr2
              cases r2 with
              | nil =>
                obtain ⟨l0, c, hrest2, hc⟩ := parseField2_last_digit rest3 1 31 d2 hd2
                obtain ⟨pre1, hrest⟩ := parseField2_suffix rest 1 12 m2 (x :: rest2) hm
                refine ⟨c1 :: c2 :: c3 :: c4 :: '-' :: (pre1 ++ x :: l0), c, ?_, hc⟩
                rw [heq, hrest]
                have hx2 : rest2 = rest3 := hpat.2.2
                rw [hx2, hrest2]
                simp
              | cons z r3 => simp at h
          · simp at h
    · simp at h
  · simp at h

theorem rstripChars_of_last_digit (l0 : List Char) (c : Char)
    (hc : isDigitC c = true) : rstripChars (l0 ++ [c]) = l0 ++ [c] := by
  unfold rstripChars
  rw [List.reverse_append]
  simp only [List.reverse_cons, List.reverse_nil, List.nil_append, List.singleton_append]
  rw [List.dropWhile_cons]
  rw [isPySpace_of_digit c hc]
  simp

/-- An exactly-valid date string is unchanged by trailing-whitespace
stripping, so the whitespace-tolerant parse agrees with the exact one. -/
theorem parseYmd_rstrip (s : String) (y m d : Nat) (h : parseYmd s = some (y, m, d)) :
    parseYmdWs s = some (y, m, d) := by
  obtain ⟨l0, c, he, hc⟩ := parseYmd_last_digit s y m d h
  unfold parseYmdWs
  rw [he, rstripChars_of_last_digit l0 c hc, ← he]
  exact h

/-- Unpack a successful legacy row conversion. -/
theorem noteToRecord_ok (row : NoteRow) (r : DetRecord) (h : noteToRecord row = .ok r) :
    r.id = natStr row.id ∧
    r.timestamp = legacyTimestamp (optStr row.date) (optStr row.time) ∧
    r.common_name =
      (if pyStrip (optStr row.common_name) = "" then optStr row.scientific_name
       else pyStrip (optStr row.common_name)) ∧
    r.scientific_name = pyStrip (optStr row.scientific_name) ∧
    confFloat row.confidence = some r.confidence ∧
    r.audio_path = optStr row.clip_name := by
  unfold noteToRecord at h
  cases hc : confFloat row.confidence with
  | none => rw [hc] at h; simp at h
  | some q =>
    rw [hc] at h
    simp only [Except.ok.injEq] at h
    subst h
    simp

/-- Unpack a successful v2 row conversion. -/
theorem v2ToRecord_ok (p : DetRow × LabelRow) (r : DetRecord) (h : v2ToRecord p = .ok r) :
    r.id = natStr p.1.id ∧
    r.timestamp = (match p.1.detected_at with
                   | some t => isoOfEpoch t
                   | none => "") ∧
    r.common_name = optStr p.2.scientific_name ∧
    r.scientific_name = optStr p.2.scientific_name ∧
    confFloat p.1.confidence = some r.confidence ∧
    r.audio_path = optStr p.1.clip_name := by
  unfold v2ToRecord at h
  cases hc : confFloat p.1.confidence with
  | none => rw [hc] at h; simp at h
  | some q =>
    rw [hc] at h
    simp only [Except.ok.injEq] at h
    subst h
    simp

/-- Every record returned by the legacy query arises from a stored row that
passed the `WHERE` clause. -/
theorem legacy_mem (db : DB) (rows : List NoteRow) (ds de cn : Option String)
    (lim : Int) (after : Option Nat) (out : List DetRecord)
    (hn : db.notes = some rows)
    (h : get_detections_legacy db ds de cn lim after = .ok out)
    (r : DetRecord) (hr : r ∈ out) :
    ∃ row ∈ rows, noteFilter ds de cn after row = true ∧ noteToRecord row = .ok r := by
  unfold get_detections_legacy at h
  rw [hn] at h
  obtain ⟨a, ha, hfa⟩ := mapME_mem _ _ _ h r hr
  have h1 : a ∈ List.insertionSort noteRel (rows.filter (noteFilter ds de cn after)) :=
    (applyLimit_sublist lim _).mem ha
  have h2 : a ∈ rows.filter (noteFilter ds de cn after) :=
    (List.perm_insertionSort noteRel _).mem_iff.mp h1
  have h3 := List.mem_filter.mp h2
  exact ⟨a, h3.1, h3.2, hfa⟩

/-- Every record returned by the v2 branch arises from a joined row that
passed the `WHERE` clause. -/
theorem v2_mem (db : DB) (ds de cn : Option String) (lim : Int) (after : Option Nat)
    (out : List DetRecord)
    (hv : detect_schema db = "v2")
    (h : get_detections_v2 db ds de cn lim after = .ok out)
    (r : DetRecord) (hr : r ∈ out) :
    ∃ p ∈ v2Joined db,
      detFilter (v2StartTs ds) (v2EndTs de) cn after p = true ∧ v2ToRecord p = .ok r := by
  unfold get_detections_v2 at h
  rw [if_neg (schema_v2_not_legacy db hv)] at h
  rw [hv] at h
  simp only [ne_eq, not_true_eq_false, if_false] at h
  obtain ⟨a, ha, hfa⟩ := mapME_mem _ _ _ h r hr
  have h1 : a ∈ List.insertionSort detRel
      ((v2Joined db).filter (detFilter (v2StartTs ds) (v2EndTs de) cn after)) :=
    (applyLimit_sublist lim _).mem ha
  have h2 : a ∈ (v2Joined db).filter (detFilter (v2StartTs ds) (v2EndTs de) cn after) :=
    (List.perm_insertionSort detRel _).mem_iff.mp h1
  have h3 := List.mem_filter.mp h2
  exact ⟨a, h3.1, h3.2, hfa⟩

/-- The detections half of the join is a sublist of the `detections` table. -/
theorem joined_fst_sublist (labs : List LabelRow) (dets : List DetRow) :
    ((dets.filterMap (fun d =>
        (labs.find? (fun l => decide (l.id = d.label_id))).map (fun l => (d, l)))).map
      Prod.fst).Sublist dets := by
  induction dets with
  | nil => simp
  | cons d ds ih =>
    simp only [List.filterMap_cons]
    cases hf : labs.find? (fun l => decide (l.id = d.label_id)) with
    | none => simpa using ih.cons d
    | some l => simpa using ih.cons₂ d

theorem v2Joined_fst_sublist (db : DB) (dets : List DetRow)
    (hd : db.detections = some dets) (labs : List LabelRow)
    (hl : db.labels = some labs) :
    ((v2Joined db).map Prod.fst).Sublist dets := by
  unfold v2Joined
  rw [hd, hl]
  exact joined_fst_sublist labs dets

theorem v2Joined_fst_mem (db : DB) (dets : List DetRow)
    (hd : db.detections = some dets) (labs : List LabelRow)
    (hl : db.labels = some labs) (p : DetRow × LabelRow) (hp : p ∈ v2Joined db) :
    p.1 ∈ dets :=
  (v2Joined_fst_sublist db dets hd labs hl).mem (List.mem_map_of_mem Prod.fst hp)

/-- Ids survive the filter/sort/limit pipeline without duplication. -/
theorem nodup_ids_of_pipeline {α : Type} (f : α → Nat) (rel : α → α → Prop)
    [DecidableRel rel] (p : α → Bool) (lim : Int) (rows : List α)
    (h : (rows.map f).Nodup) :
    ((applyLimit lim (List.insertionSort rel (rows.filter p))).map f).Nodup := by
  have h1 : ((rows.filter p).map f).Nodup :=
    h.sublist ((List.filter_sublist rows).map f)
  have h2 : ((List.insertionSort rel (rows.filter p)).map f).Nodup :=
    (((List.perm_insertionSort rel _)).map f).nodup_iff.mpr h1
  exact h2.sublist ((applyLimit_sublist lim _).map f)

/-- Turn the pointwise `mapME` relation into a `map` equation. -/
theorem forall2_map_eq {α β γ : Type} (f : β → γ) (g : α → γ)
    (out : List β) (sel : List α)
    (h : List.Forall₂ (fun b a => f b = g a) out sel) : out.map f = sel.map g := by
  induction h with
  | nil => rfl
  | cons hrel _ ih => simp [ih, hrel]

/-! ### Claim C3: behaviour on an unknown schema -/

/-- A database whose schema is `unknown` (no labels, no notes) but whose
`detections` table exists. -/
def dbC3 : DB :=
  { detections := some [{ id := 7, detected_at := none, confidence := .null,
                          clip_name := none, label_id := 1 }]
    labels := none
    notes := none }

/-- A database with no tables at all. -/
def dbEmpty : DB := { detections := none, labels := none, notes := none }

/-- C3 (counterexample): on an unknown-schema database that does have a
`detections` table (but no `labels`), `get_max_detection_id` does not fail
with a schema error at all — it happily returns the maximum id.  This
refutes the claim that every query operation fails with a schema error on
every unknown-schema database. -/
theorem c3_counterexample :
    detect_schema dbC3 = "unknown" ∧ get_max_detection_id dbC3 = .ok 7 := by
  exact ⟨rfl, rfl⟩

/-- C3 (amended): on an unknown-schema database, `get_detections_v2` and
`get_stats_v2` fail with the schema error naming the unsupported condition;
`get_max_detection_id`, however, queries the `detections` table directly —
when that table is absent it raises an operational (no-such-table) error,
not a schema error, and when the table exists it succeeds. -/
theorem c3_unknown_schema_errors (db : DB) (ds de cn : Option String) (lim : Int)
    (after : Option Nat) (hu : detect_schema db = "unknown") :
    get_detections_v2 db ds de cn lim after =
      .error (.schemaError
        "Database schema is not v2 (detections+labels) nor legacy (notes).") ∧
    get_stats_v2 db ds de =
      .error (.schemaError
        "Database schema is not v2 (detections+labels) nor legacy (notes).") ∧
    (db.detections = none →
      get_max_detection_id db = .error (.operationalError "no such table: detections")) := by
  have hnl : ¬ detect_schema db = "legacy" := by rw [hu]; decide
  have hnv : detect_schema db ≠ "v2" := by rw [hu]; decide
  refine ⟨?_, ?_, ?_⟩
  · unfold get_detections_v2
    rw [if_neg hnl, if_pos hnv]
  · unfold get_stats_v2
    rw [if_neg hnl, if_pos hnv]
  · intro hd
    unfold get_max_detection_id
    rw [if_neg hnl, hd]

/-- C3 (witness): the amended statement evaluated on the empty database. -/
theorem c3_witness :
    detect_schema dbEmpty = "unknown" ∧
    get_detections_v2 dbEmpty none none none 100 none =
      .error (.schemaError
        "Database schema is not v2 (detections+labels) nor legacy (notes).") ∧
    get_stats_v2 dbEmpty none none =
      .error (.schemaError
        "Database schema is not v2 (detections+labels) nor legacy (notes).") ∧
    get_max_detection_id dbEmpty = .error (.operationalError "no such table: detections") :=
  have h := c3_unknown_schema_errors dbEmpty none none none 100 none rfl
  ⟨rfl, h.1, h.2.1, h.2.2 rfl⟩

/-! ### Claim C4: malformed date strings -/

/-- A one-row legacy database used to exhibit the legacy malformed-date
behaviour. -/
def dbC4 : DB :=
  { detections := none
    labels := none
    notes := some [{ id := 1, date := some "2024-01-15", time := none,
                     scientific_name := some "Parus major", common_name := none,
                     confidence := .null, clip_name := none }] }

/-- One-row v2 database whose row is stamped 2024-02-01 12:00:00 UTC. -/
def dbC4v : DB :=
  { detections := some [{ id := 1, detected_at := some (epochOfYmdHms 2024 2 1 12 0 0),
                          confidence := .null, clip_name := none, label_id := 1 }]
    labels := some [{ id := 1, scientific_name := some "Parus major" }]
    notes := none }

/-- C4 (counterexample): two refutations of the original claim. Legacy: the
malformed `date_start` `"zzz"` is not treated as absent — it participates
in the lexicographic comparison and filters the stored row out (no error is
raised). Modern: the not-well-formed `date_end` `"2024-01-15 "` (trailing
space) is not treated as absent either — the code parses
`date_end + " 23:59:59"`, the format-space absorbs the trailing whitespace,
and the resulting bound excludes a row stamped 2024-02-01. -/
theorem c4_counterexample :
    parseYmd "zzz" = none ∧
    get_detections_legacy dbC4 (some "zzz") none none 100 none = .ok [] ∧
    get_detections_legacy dbC4 none none none 100 none =
      .ok [{ id := "1", timestamp := "2024-01-15T00:00:00Z",
             common_name := "Parus major", scientific_name := "Parus major",
             confidence := 0, audio_path := "" }] ∧
    parseYmd "2024-01-15 " = none ∧
    v2EndTs (some "2024-01-15 ") = some (epochOfYmdHms 2024 1 15 23 59 59) ∧
    get_detections_v2 dbC4v none (some "2024-01-15 ") none 100 none = .ok [] ∧
    get_detections_v2 dbC4v none none none 100 none =
      .ok [{ id := "1", timestamp := "2024-02-01T12:00:00Z",
             common_name := "Parus major", scientific_name := "Parus major",
             confidence := 0, audio_path := "" }] :=
  ⟨rfl, rfl, rfl, rfl, rfl, rfl, rfl⟩

/-- C4 (amended): in the modern dialect a `date_start` that fails `strptime`
is treated exactly as an absent bound; a `date_end` is treated as absent
precisely when it still fails to parse after discarding trailing
whitespace — the code parses `date_end + " 23:59:59"`, whose format-space
absorbs a trailing whitespace run, so a valid date plus trailing whitespace
is applied as a bound (see the counterexample). No error is raised either
way. In the legacy dialect no error is raised, but the malformed string
takes part in the SQL string comparison (see the counterexample). -/
theorem c4_modern_malformed_date_ignored (db : DB) (s : String)
    (hv : detect_schema db = "v2") (ds de cn : Option String) (lim : Int)
    (after : Option Nat) :
    (parseYmd s = none →
      get_detections_v2 db (some s) de cn lim after =
        get_detections_v2 db none de cn lim after ∧
      get_stats_v2 db (some s) de = get_stats_v2 db none de) ∧
    (parseYmdWs s = none →
      get_detections_v2 db ds (some s) cn lim after =
        get_detections_v2 db ds none cn lim after ∧
      get_stats_v2 db ds (some s) = get_stats_v2 db ds none) := by
  constructor
  · intro hs
    have h1 : v2StartTs (some s) = v2StartTs none := by
      unfold v2StartTs
      by_cases he : s = ""
      · simp [he]
      · simp [he, hs]
    have h3 : statsDetFilter (some s) de = statsDetFilter none de := by
      funext p
      unfold statsDetFilter
      rw [h1]
    constructor
    · unfold get_detections_v2
      rw [hv, h1]
      simp
    · unfold get_stats_v2
      rw [hv, h3]
      simp
  · intro hs
    have h2 : v2EndTs (some s) = v2EndTs none := by
      unfold v2EndTs
      by_cases he : s = ""
      · simp [he]
      · simp [he, hs]
    have h4 : statsDetFilter ds (some s) = statsDetFilter ds none := by
      funext p
      unfold statsDetFilter
      rw [h2]
    constructor
    · unfold get_detections_v2
      rw [hv, h2]
      simp
    · unfold get_stats_v2
      rw [hv, h4]
      simp

/-- An empty v2-schema database. -/
def dbV0 : DB := { detections := some [], labels := some [], notes := none }

/-- C4 (witness): the amended statement evaluated at a concrete string that
is malformed even after trailing-whitespace stripping, on a v2-schema
database. -/
theorem c4_witness :
    parseYmd "not-a-date" = none ∧ parseYmdWs "not-a-date" = none ∧
    detect_schema dbV0 = "v2" ∧
    (get_detections_v2 dbV0 (some "not-a-date") none none 100 none =
      get_detections_v2 dbV0 none none none 100 none) ∧
    (get_stats_v2 dbV0 (some "not-a-date") none = get_stats_v2 dbV0 none none) ∧
    (get_detections_v2 dbV0 none (some "not-a-date") none 100 none =
      get_detections_v2 dbV0 none none none 100 none) ∧
    (get_stats_v2 dbV0 none (some "not-a-date") = get_stats_v2 dbV0 none none) :=
  have h := c4_modern_malformed_date_ignored dbV0 "not-a-date" rfl none none none 100 none
  ⟨rfl, rfl, rfl, (h.1 rfl).1, (h.1 rfl).2, (h.2 rfl).1, (h.2 rfl).2⟩

/-! ### Claim C5: the 500-row cap -/

/-- Length of a query result, `0` on error. -/
def exLen (r : Except DbError (List DetRecord)) : Nat :=
  match r with
  | .ok l => l.length
  | .error _ => 0

/-- A legacy database holding 501 rows. -/
def dbL501 : DB :=
  { detections := none
    labels := none
    notes := some ((List.range 501).map (fun i =>
      { id := i + 1, date := none, time := none, scientific_name := none,
        common_name := none, confidence := .null, clip_name := none })) }

/-- C5 (counterexample): a caller-supplied limit of `-1` defeats the cap:
`min(-1, 500) = -1` and SQLite treats a negative `LIMIT` as "no limit", so
all 501 rows come back, refuting "at most 500 rows for every caller-supplied
limit value". -/
theorem c5_counterexample :
    exLen (get_detections_v2 dbL501 none none none (-1) none) = 501 := rfl

/-- C5 (amended): for every nonnegative caller-supplied limit, the result of
`get_detections_v2` (either dialect, via dispatch) has at most 500 rows;
a negative limit disables the cap entirely (SQLite semantics of a negative
`LIMIT`), as the counterexample shows. -/
theorem c5_cap_nonneg_limit (db : DB) (ds de cn : Option String) (lim : Int)
    (after : Option Nat) (out : List DetRecord) (hlim : 0 ≤ lim)
    (h : get_detections_v2 db ds de cn lim after = .ok out) : out.length ≤ 500 := by
  unfold get_detections_v2 at h
  by_cases hl : detect_schema db = "legacy"
  · rw [if_pos hl] at h
    unfold get_detections_legacy at h
    cases hn : db.notes with
    | none => rw [hn] at h; simp at h
    | some rows =>
      rw [hn] at h
      have hlen := mapME_length _ _ _ h
      rw [hlen]
      exact applyLimit_length_le lim _ hlim
  · rw [if_neg hl] at h
    by_cases hv : detect_schema db = "v2"
    · rw [if_neg (by simp [hv])] at h
      have hlen := mapME_length _ _ _ h
      rw [hlen]
      exact applyLimit_length_le lim _ hlim
    · rw [if_pos hv] at h
      simp at h

/-- The rows returned for a requested limit of 10000. -/
def c5Out : List DetRecord :=
  match get_detections_v2 dbL501 none none none 10000 none with
  | .ok l => l
  | .error _ => []

/-- C5 (witness): the spec's own instance — a requested limit of 10000 on a
501-row database returns at most 500 rows. -/
theorem c5_witness :
    (0 : Int) ≤ 10000 ∧
    get_detections_v2 dbL501 none none none 10000 none = .ok c5Out ∧
    c5Out.length ≤ 500 :=
  ⟨by decide, rfl, c5_cap_nonneg_limit dbL501 none none none 10000 none c5Out (by decide) rfl⟩

/-! ### Claim C9: `period=week` -/

/-- C9: when the `period` query parameter equals `"week"` after stripping and
ASCII lower-casing, the effective range is Monday of the current week
(`isoweekday` 1, at most 6 days before today) through today, overriding any
explicit `date_start`/`date_end`; for any other `period` value the explicit
dates pass through unchanged. -/
theorem c9_period_week (period ds de : Option String) (today : Int) :
    (lowerStr (pyStrip (optStr period)) = "week" →
      parse_date_range period ds de today =
        (some (fmtDays (today - (isoweekdayOfDays today - 1))), some (fmtDays today)) ∧
      isoweekdayOfDays (today - (isoweekdayOfDays today - 1)) = 1 ∧
      today - (isoweekdayOfDays today - 1) ≤ today ∧
      today < today - (isoweekdayOfDays today - 1) + 7) ∧
    (lowerStr (pyStrip (optStr period)) ≠ "week" →
      parse_date_range period ds de today = (ds, de)) := by
  constructor
  · intro hw
    refine ⟨?_, ?_, ?_, ?_⟩
    · unfold parse_date_range
      rw [hw]
      simp
    · unfold isoweekdayOfDays
      omega
    · unfold isoweekdayOfDays
      omega
    · unfold isoweekdayOfDays
      omega
  · intro hw
    unfold parse_date_range
    rw [if_pos hw]

/-- C9 (witness): day 6 of the epoch is Wednesday 1970-01-07; with
`period = "  WeEk "` the effective range is Monday 1970-01-05 through
1970-01-07, overriding the explicit dates; with `period = "month"` the
explicit dates pass through. -/
theorem c9_witness :
    lowerStr (pyStrip (optStr (some "  WeEk "))) = "week" ∧
    isoweekdayOfDays 6 = 3 ∧
    fmtDays (6 - (isoweekdayOfDays 6 - 1)) = "1970-01-05" ∧
    fmtDays 6 = "1970-01-07" ∧
    (parse_date_range (some "  WeEk ") (some "2020-01-01") (some "2020-02-02") 6 =
      (some (fmtDays (6 - (isoweekdayOfDays 6 - 1))), some (fmtDays 6)) ∧
     isoweekdayOfDays (6 - (isoweekdayOfDays 6 - 1)) = 1 ∧
     6 - (isoweekdayOfDays 6 - 1) ≤ (6 : Int) ∧
     (6 : Int) < 6 - (isoweekdayOfDays 6 - 1) + 7) ∧
    parse_date_range (some "month") (some "2020-01-01") (some "2020-02-02") 6 =
      (some "2020-01-01", some "2020-02-02") :=
  ⟨rfl, rfl, rfl, rfl,
    (c9_period_week (some "  WeEk ") (some "2020-01-01") (some "2020-02-02") 6).1 rfl,
    (c9_period_week (some "month") (some "2020-01-01") (some "2020-02-02") 6).2
      (by decide)⟩

/-! ### Claim C6: date-range containment -/

/-- C6: for a valid date pair, every returned record's timestamp lies within
`[date_start 00:00:00, date_end 23:59:59]`, in the sense each dialect gives
those bounds: the modern dialect converts the calendar bounds to epoch
seconds and renders the stored epoch back as ISO-8601 UTC (so the record's
timestamp is the UTC rendering of an epoch inside the bound interval); the
legacy dialect compares the stored `date` text lexicographically against the
bounds and builds the timestamp from that stored date. -/
theorem c6_date_bounds (db : DB) (dsS deS : String) (ys ms dds yd md dde : Nat)
    (hds : parseYmd dsS = some (ys, ms, dds)) (hde : parseYmd deS = some (yd, md, dde))
    (_hord : strLe dsS deS = true) (cn : Option String) (lim : Int) (after : Option Nat) :
    (∀ out, detect_schema db = "v2" →
      get_detections_v2 db (some dsS) (some deS) cn lim after = .ok out →
      ∀ r ∈ out, ∃ t : Int,
        epochOfYmdHms ys ms dds 0 0 0 ≤ t ∧ t ≤ epochOfYmdHms yd md dde 23 59 59 ∧
        r.timestamp = isoOfEpoch t) ∧
    (∀ rows out, db.notes = some rows →
      get_detections_legacy db (some dsS) (some deS) cn lim after = .ok out →
      ∀ r ∈ out, ∃ d tRaw : String, strLe dsS d = true ∧ strLe d deS = true ∧
        r.timestamp = legacyTimestamp d tRaw) := by
  have hs1 : v2StartTs (some dsS) = some (epochOfYmdHms ys ms dds 0 0 0) := by
    simp only [v2StartTs]
    rw [if_neg (parseYmd_ne_empty _ _ _ _ hds), hds]
  have hs2 : v2EndTs (some deS) = some (epochOfYmdHms yd md dde 23 59 59) := by
    simp only [v2EndTs]
    rw [if_neg (parseYmd_ne_empty _ _ _ _ hde), parseYmd_rstrip deS yd md dde hde]
  constructor
  · intro out hv h r hr
    obtain ⟨p, hp, hf, hconv⟩ := v2_mem db (some dsS) (some deS) cn lim after out hv h r hr
    rw [hs1, hs2] at hf
    simp only [detFilter, Bool.and_eq_true] at hf
    obtain ⟨⟨⟨h1, h2⟩, _⟩, _⟩ := hf
    cases hda : p.1.detected_at with
    | none => rw [hda] at h1; simp at h1
    | some t =>
      rw [hda] at h1 h2
      simp only [decide_eq_true_eq] at h1 h2
      have hrec := v2ToRecord_ok p r hconv
      refine ⟨t, h1, h2, ?_⟩
      rw [hrec.2.1, hda]
  · intro rows out hn h r hr
    obtain ⟨row, hrow, hf, hconv⟩ :=
      legacy_mem db rows (some dsS) (some deS) cn lim after out hn h r hr
    simp only [noteFilter, Bool.and_eq_true] at hf
    obtain ⟨⟨⟨h1, h2⟩, _⟩, _⟩ := hf
    simp only [condGe, if_neg (parseYmd_ne_empty _ _ _ _ hds)] at h1
    simp only [condLe, if_neg (parseYmd_ne_empty _ _ _ _ hde)] at h2
    cases hd : row.date with
    | none => rw [hd] at h1; simp at h1
    | some d =>
      rw [hd] at h1 h2
      have hrec := noteToRecord_ok row r hconv
      refine ⟨d, optStr row.time, h1, h2, ?_⟩
      rw [hrec.2.1, hd]
      rfl

/-- A two-row v2 database, one row inside the queried range and one before
it. -/
def dbC6v : DB :=
  { detections := some
      [{ id := 1, detected_at := some (epochOfYmdHms 2024 1 15 12 0 0),
         confidence := .null, clip_name := none, label_id := 1 },
       { id := 2, detected_at := some (epochOfYmdHms 2023 12 1 8 0 0),
         confidence := .null, clip_name := none, label_id := 1 }]
    labels := some [{ id := 1, scientific_name := some "Turdus merula" }]
    notes := none }

/-- The matching legacy fixture. -/
def c6Notes : List NoteRow :=
  [{ id := 1, date := some "2024-01-15", time := some "10:00:00",
     scientific_name := some "Parus major", common_name := none,
     confidence := .null, clip_name := none },
   { id := 2, date := some "2023-12-01", time := none,
     scientific_name := some "Corvus corax", common_name := none,
     confidence := .null, clip_name := none }]

/-- Legacy database for the C6 witness. -/
def dbC6l : DB := { detections := none, labels := none, notes := some c6Notes }

/-- Rows returned by the modern C6 witness query. -/
def c6OutV : List DetRecord :=
  match get_detections_v2 dbC6v (some "2024-01-10") (some "2024-01-20") none 100 none with
  | .ok l => l
  | .error _ => []

/-- Rows returned by the legacy C6 witness query. -/
def c6OutL : List DetRecord :=
  match get_detections_legacy dbC6l (some "2024-01-10") (some "2024-01-20") none 100 none with
  | .ok l => l
  | .error _ => []

/-- C6 (witness): the containment statement evaluated on concrete modern and
legacy fixtures over the range 2024-01-10 … 2024-01-20. -/
theorem c6_witness :
    parseYmd "2024-01-10" = some (2024, 1, 10) ∧
    parseYmd "2024-01-20" = some (2024, 1, 20) ∧
    strLe "2024-01-10" "2024-01-20" = true ∧
    detect_schema dbC6v = "v2" ∧
    get_detections_v2 dbC6v (some "2024-01-10") (some "2024-01-20") none 100 none =
      .ok c6OutV ∧
    (∀ r ∈ c6OutV, ∃ t : Int,
      epochOfYmdHms 2024 1 10 0 0 0 ≤ t ∧ t ≤ epochOfYmdHms 2024 1 20 23 59 59 ∧
      r.timestamp = isoOfEpoch t) ∧
    get_detections_legacy dbC6l (some "2024-01-10") (some "2024-01-20") none 100 none =
      .ok c6OutL ∧
    (∀ r ∈ c6OutL, ∃ d tRaw : String, strLe "2024-01-10" d = true ∧
      strLe d "2024-01-20" = true ∧ r.timestamp = legacyTimestamp d tRaw) :=
  have h1 := c6_date_bounds dbC6v "2024-01-10" "2024-01-20" 2024 1 10 2024 1 20
    rfl rfl rfl none 100 none
  have h2 := c6_date_bounds dbC6l "2024-01-10" "2024-01-20" 2024 1 10 2024 1 20
    rfl rfl rfl none 100 none
  ⟨rfl, rfl, rfl, rfl, rfl, h1.1 c6OutV rfl rfl, rfl, h2.2 c6Notes c6OutL rfl rfl⟩

/-! ### Claim C7: canonical record field defaults -/

theorem confFloat_falsy (v : SqlVal) (h : sqlTruthy v = false) : confFloat v = some 0 := by
  unfold confFloat
  rw [h]
  rfl

/-- A legacy database whose single row stores non-numeric text in the
`confidence` column. -/
def dbC7 : DB :=
  { detections := none
    labels := none
    notes := some [{ id := 1, date := some "2024-01-15", time := none,
                     scientific_name := some "Parus major", common_name := none,
                     confidence := .text "abc", clip_name := none }] }

/-- C7 (counterexample): a malformed (non-numeric text) stored confidence
does not default to 0 — `float("abc")` raises, so the whole query fails with
a `ValueError` instead of returning a record with confidence 0. -/
theorem c7_counterexample :
    sqlTruthy (SqlVal.text "abc") = true ∧
    get_detections_legacy dbC7 none none none 100 none =
      .error (.valueError "could not convert string to float") :=
  ⟨rfl, rfl⟩

/-- C7 (amended): every record either dialect returns carries all six fields
(string/number typed by construction of `DetRecord`) and derives from a
stored row as follows: absent/NULL storage maps to the empty string for the
string fields, and the confidence is 0 whenever the stored value is falsy
(SQL NULL, 0, or empty text). A non-numeric text confidence is not
defaulted: it makes the query raise (see the counterexample). -/
theorem c7_field_defaults :
    (∀ db rows ds de cn lim after out, db.notes = some rows →
      get_detections_legacy db ds de cn lim after = .ok out →
      ∀ r ∈ out, ∃ row ∈ rows,
        r.id = natStr row.id ∧
        r.timestamp = legacyTimestamp (optStr row.date) (optStr row.time) ∧
        confFloat row.confidence = some r.confidence ∧
        (sqlTruthy row.confidence = false → r.confidence = 0) ∧
        (row.clip_name = none → r.audio_path = "") ∧
        (row.common_name = none → row.scientific_name = none →
          r.common_name = "" ∧ r.scientific_name = "") ∧
        (pyStrip (optStr row.common_name) = "" →
          r.common_name = optStr row.scientific_name)) ∧
    (∀ db ds de cn lim after out, detect_schema db = "v2" →
      get_detections_v2 db ds de cn lim after = .ok out →
      ∀ r ∈ out, ∃ p ∈ v2Joined db,
        r.id = natStr p.1.id ∧
        r.common_name = optStr p.2.scientific_name ∧
        r.scientific_name = optStr p.2.scientific_name ∧
        (p.1.detected_at = none → r.timestamp = "") ∧
        (sqlTruthy p.1.confidence = false → r.confidence = 0) ∧
        (p.1.clip_name = none → r.audio_path = "") ∧
        (p.2.scientific_name = none → r.common_name = "" ∧ r.scientific_name = "")) := by
  constructor
  · intro db rows ds de cn lim after out hn h r hr
    obtain ⟨row, hrow, _, hconv⟩ := legacy_mem db rows ds de cn lim after out hn h r hr
    have hrec := noteToRecord_ok row r hconv
    refine ⟨row, hrow, hrec.1, hrec.2.1, hrec.2.2.2.2.1, ?_, ?_, ?_, ?_⟩
    · intro hfalsy
      have hz := confFloat_falsy row.confidence hfalsy
      have h0 : some r.confidence = some (0 : ℚ) := hrec.2.2.2.2.1.symm.trans hz
      exact Option.some_inj.mp h0
    · intro hclip
      rw [hrec.2.2.2.2.2, hclip]
      rfl
    · intro hcm hsn
      constructor
      · rw [hrec.2.2.1, hcm, hsn]
        rfl
      · rw [hrec.2.2.2.1, hsn]
        rfl
    · intro hstrip
      rw [hrec.2.2.1, if_pos hstrip]
  · intro db ds de cn lim after out hv h r hr
    obtain ⟨p, hp, _, hconv⟩ := v2_mem db ds de cn lim after out hv h r hr
    have hrec := v2ToRecord_ok p r hconv
    refine ⟨p, hp, hrec.1, hrec.2.2.1, hrec.2.2.2.1, ?_, ?_, ?_, ?_⟩
    · intro hda
      rw [hrec.2.1, hda]
    · intro hfalsy
      have hz := confFloat_falsy p.1.confidence hfalsy
      have h0 : some r.confidence = some (0 : ℚ) := hrec.2.2.2.2.1.symm.trans hz
      exact Option.some_inj.mp h0
    · intro hclip
      rw [hrec.2.2.2.2.2, hclip]
      rfl
    · intro hsn
      constructor
      · rw [hrec.2.2.1, hsn]
        rfl
      · rw [hrec.2.2.2.1, hsn]
        rfl

/-- Legacy database with a fully-NULL row (except the id). -/
def dbC7l : DB :=
  { detections := none
    labels := none
    notes := some [{ id := 3, date := none, time := none, scientific_name := none,
                     common_name := none, confidence := .null, clip_name := none }] }

/-- v2 database whose row and label carry only NULLs besides ids. -/
def dbC7v : DB :=
  { detections := some [{ id := 4, detected_at := none, confidence := .null,
                          clip_name := none, label_id := 1 }]
    labels := some [{ id := 1, scientific_name := none }]
    notes := none }

/-- Rows returned by the legacy C7 witness query. -/
def c7OutL : List DetRecord :=
  match get_detections_legacy dbC7l none none none 100 none with
  | .ok l => l
  | .error _ => []

/-- Rows returned by the v2 C7 witness query. -/
def c7OutV : List DetRecord :=
  match get_detections_v2 dbC7v none none none 100 none with
  | .ok l => l
  | .error _ => []

/-- C7 (witness): the amended statement evaluated on all-NULL fixtures in
both dialects. -/
theorem c7_witness :
    get_detections_legacy dbC7l none none none 100 none = .ok c7OutL ∧
    (∀ r ∈ c7OutL, ∃ row ∈
        [({ id := 3, date := none, time := none, scientific_name := none,
            common_name := none, confidence := .null, clip_name := none } : NoteRow)],
      r.id = natStr row.id ∧
      r.timestamp = legacyTimestamp (optStr row.date) (optStr row.time) ∧
      confFloat row.confidence = some r.confidence ∧
      (sqlTruthy row.confidence = false → r.confidence = 0) ∧
      (row.clip_name = none → r.audio_path = "") ∧
      (row.common_name = none → row.scientific_name = none →
        r.common_name = "" ∧ r.scientific_name = "") ∧
      (pyStrip (optStr row.common_name) = "" →
        r.common_name = optStr row.scientific_name)) ∧
    detect_schema dbC7v = "v2" ∧
    get_detections_v2 dbC7v none none none 100 none = .ok c7OutV ∧
    (∀ r ∈ c7OutV, ∃ p ∈ v2Joined dbC7v,
      r.id = natStr p.1.id ∧
      r.common_name = optStr p.2.scientific_name ∧
      r.scientific_name = optStr p.2.scientific_name ∧
      (p.1.detected_at = none → r.timestamp = "") ∧
      (sqlTruthy p.1.confidence = false → r.confidence = 0) ∧
      (p.1.clip_name = none → r.audio_path = "") ∧
      (p.2.scientific_name = none → r.common_name = "" ∧ r.scientific_name = "")) :=
  have h := c7_field_defaults
  ⟨rfl,
   h.1 dbC7l
     [{ id := 3, date := none, time := none, scientific_name := none,
        common_name := none, confidence := .null, clip_name := none }]
     none none none 100 none c7OutL rfl rfl,
   rfl, rfl,
   h.2 dbC7v none none none 100 none c7OutV rfl rfl⟩

/-! ### Claim C8: aggregate stats -/

/-- Sorting and summing behaviour of the shared group-count pipeline. -/
theorem agg_pipeline (keys : List (Option String)) (mk : Option String → Nat → SpeciesAgg)
    (hmk : ∀ k c, (mk k c).count = c) (out : List SpeciesAgg)
    (hout : out = List.insertionSort statRel
      (keys.dedup.map (fun k => mk k (keys.countP (fun x => decide (x = k)))))) :
    List.Pairwise (fun a b => b.count ≤ a.count) out ∧
    (out.map (fun a => a.count)).sum = keys.length := by
  subst hout
  constructor
  · exact (List.sorted_insertionSort statRel _).imp (fun h => h)
  · have hperm :
        List.Perm
          ((List.insertionSort statRel
            (keys.dedup.map (fun k => mk k (keys.countP (fun x => decide (x = k)))))).map
              (fun a => a.count))
          ((keys.dedup.map (fun k => mk k (keys.countP (fun x => decide (x = k))))).map
              (fun a => a.count)) :=
      (List.perm_insertionSort statRel _).map _
    rw [hperm.sum_eq, List.map_map]
    have hcomp : ((fun a => a.count) ∘ fun k => mk k (keys.countP (fun x => decide (x = k))))
        = fun k => keys.countP (fun x => decide (x = k)) := by
      funext k
      exact hmk _ _
    rw [hcomp]
    exact List.sum_map_count_dedup_eq_length keys

/-- C8: in both dialects the stats output is sorted non-increasingly by
count, every count is a non-negative integer, and the counts sum to the
total number of detection rows passing the date filter. -/
theorem c8_stats_sorted_sum :
    (∀ db rows ds de out, db.notes = some rows →
      get_stats_legacy db ds de = .ok out →
      List.Pairwise (fun a b => b.count ≤ a.count) out ∧
      (∀ a ∈ out, 0 ≤ a.count) ∧
      (out.map (fun a => a.count)).sum = (rows.filter (statsNoteFilter ds de)).length) ∧
    (∀ db ds de out, detect_schema db = "v2" →
      get_stats_v2 db ds de = .ok out →
      List.Pairwise (fun a b => b.count ≤ a.count) out ∧
      (∀ a ∈ out, 0 ≤ a.count) ∧
      (out.map (fun a => a.count)).sum =
        ((v2Joined db).filter (statsDetFilter ds de)).length) := by
  constructor
  · intro db rows ds de out hn h
    unfold get_stats_legacy at h
    rw [hn] at h
    simp only [Except.ok.injEq] at h
    have hmain := agg_pipeline ((rows.filter (statsNoteFilter ds de)).map
        (fun r => r.scientific_name))
      (fun k c =>
        { common_name :=
            if optStr (sqlMaxStr (((rows.filter (statsNoteFilter ds de)).filter
                (fun r => decide (r.scientific_name = k))).map (fun r => r.common_name))) = ""
            then optStr k
            else optStr (sqlMaxStr (((rows.filter (statsNoteFilter ds de)).filter
                (fun r => decide (r.scientific_name = k))).map (fun r => r.common_name)))
          scientific_name := optStr k
          count := c })
      (fun _ _ => rfl) out h.symm
    refine ⟨hmain.1, fun a _ => Nat.zero_le _, ?_⟩
    rw [hmain.2, List.length_map]
  · intro db ds de out hv h
    unfold get_stats_v2 at h
    rw [if_neg (schema_v2_not_legacy db hv)] at h
    rw [hv] at h
    simp only [ne_eq, not_true_eq_false, if_false, Except.ok.injEq] at h
    have hmain := agg_pipeline (((v2Joined db).filter (statsDetFilter ds de)).map
        (fun p => p.2.scientific_name))
      (fun k c =>
        { common_name := optStr k
          scientific_name := optStr k
          count := c })
      (fun _ _ => rfl) out h.symm
    refine ⟨hmain.1, fun a _ => Nat.zero_le _, ?_⟩
    rw [hmain.2, List.length_map]

/-- Legacy stats fixture: three rows over two species. -/
def c8Notes : List NoteRow :=
  [{ id := 1, date := some "2024-01-15", time := none,
     scientific_name := some "Parus major", common_name := some "Great Tit",
     confidence := .null, clip_name := none },
   { id := 2, date := some "2024-01-16", time := none,
     scientific_name := some "Parus major", common_name := none,
     confidence := .null, clip_name := none },
   { id := 3, date := some "2024-01-17", time := none,
     scientific_name := some "Corvus corax", common_name := some "Raven",
     confidence := .null, clip_name := none }]

/-- Legacy stats database for the C8 witness. -/
def dbC8l : DB := { detections := none, labels := none, notes := some c8Notes }

/-- v2 stats fixture: three detections over two labels. -/
def dbC8v : DB :=
  { detections := some
      [{ id := 1, detected_at := some 1000, confidence := .null,
         clip_name := none, label_id := 1 },
       { id := 2, detected_at := some 2000, confidence := .null,
         clip_name := none, label_id := 1 },
       { id := 3, detected_at := some 3000, confidence := .null,
         clip_name := none, label_id := 2 }]
    labels := some [{ id := 1, scientific_name := some "Parus major" },
                    { id := 2, scientific_name := some "Corvus corax" }]
    notes := none }

/-- Aggregates returned by the legacy C8 witness query. -/
def c8OutL : List SpeciesAgg :=
  match get_stats_legacy dbC8l none none with
  | .ok l => l
  | .error _ => []

/-- Aggregates returned by the v2 C8 witness query. -/
def c8OutV : List SpeciesAgg :=
  match get_stats_v2 dbC8v none none with
  | .ok l => l
  | .error _ => []

/-- C8 (witness): the stats invariants evaluated on concrete fixtures in
both dialects (3 rows over 2 species each). -/
theorem c8_witness :
    get_stats_legacy dbC8l none none = .ok c8OutL ∧
    (List.Pairwise (fun a b => b.count ≤ a.count) c8OutL ∧
     (∀ a ∈ c8OutL, 0 ≤ a.count) ∧
     (c8OutL.map (fun a => a.count)).sum =
       (c8Notes.filter (statsNoteFilter none none)).length) ∧
    detect_schema dbC8v = "v2" ∧
    get_stats_v2 dbC8v none none = .ok c8OutV ∧
    (List.Pairwise (fun a b => b.count ≤ a.count) c8OutV ∧
     (∀ a ∈ c8OutV, 0 ≤ a.count) ∧
     (c8OutV.map (fun a => a.count)).sum =
       ((v2Joined dbC8v).filter (statsDetFilter none none)).length) ∧
    (c8OutL.map (fun a => a.count)).sum = 3 ∧
    (c8OutV.map (fun a => a.count)).sum = 3 :=
  have h := c8_stats_sorted_sum
  ⟨rfl, h.1 dbC8l c8Notes none none c8OutL rfl rfl, rfl, rfl,
   h.2 dbC8v none none c8OutV rfl rfl, rfl, rfl⟩

/-! ### Claim C10: ordering and truncation -/

/-- The filter/sort/limit pipeline returns a sorted selection, and every
qualifying row left out sorts no earlier than every selected row. -/
theorem pipeline_props {α : Type} (rel : α → α → Prop) [DecidableRel rel]
    [IsTotal α rel] [IsTrans α rel] (p : α → Bool) (lim : Int) (rows : List α) :
    List.Sorted rel (applyLimit lim (List.insertionSort rel (rows.filter p))) ∧
    (∀ q ∈ rows, p q = true →
      q ∉ applyLimit lim (List.insertionSort rel (rows.filter p)) →
      ∀ x ∈ applyLimit lim (List.insertionSort rel (rows.filter p)), rel x q) := by
  have hsort : List.Sorted rel (List.insertionSort rel (rows.filter p)) :=
    List.sorted_insertionSort rel _
  constructor
  · exact hsort.sublist (applyLimit_sublist lim _)
  · intro q hq hpq hqnot x hx
    have hq2 : q ∈ List.insertionSort rel (rows.filter p) :=
      (List.mem_insertionSort rel).mpr (List.mem_filter.mpr ⟨hq, hpq⟩)
    by_cases hneg : min lim 500 < 0
    · exfalso
      apply hqnot
      unfold applyLimit
      rw [if_pos hneg]
      exact hq2
    · have hsel : applyLimit lim (List.insertionSort rel (rows.filter p)) =
          (List.insertionSort rel (rows.filter p)).take (min lim 500).toNat := by
        unfold applyLimit
        rw [if_neg hneg]
      rw [hsel] at hqnot hx
      have hq3 : q ∈ (List.insertionSort rel (rows.filter p)).take (min lim 500).toNat ++
          (List.insertionSort rel (rows.filter p)).drop (min lim 500).toNat := by
        rw [List.take_append_drop]
        exact hq2
      have hq4 : q ∈ (List.insertionSort rel (rows.filter p)).drop (min lim 500).toNat := by
        rcases List.mem_append.mp hq3 with h | h
        · exact absurd h hqnot
        · exact h
      have hcross := (List.pairwise_append.mp
        (show List.Pairwise rel
            ((List.insertionSort rel (rows.filter p)).take (min lim 500).toNat ++
             (List.insertionSort rel (rows.filter p)).drop (min lim 500).toNat) by
          rw [List.take_append_drop]
          exact hsort)).2.2
      exact hcross x hx q hq4

/-- C10: in both dialects the query returns the filtered rows sorted
newest-first (by `(date, time)` text for legacy, by `detected_at` for
modern), truncated by the limit, and any qualifying row that was dropped
sorts no later than every returned row — so a truncated batch holds the
newest qualifying rows, not e.g. the smallest ids. -/
theorem c10_truncation_keeps_newest :
    (∀ db rows ds de cn lim after out, db.notes = some rows →
      get_detections_legacy db ds de cn lim after = .ok out →
      ∃ sel, mapME noteToRecord sel = .ok out ∧
        List.Sorted noteRel sel ∧
        List.Forall₂ (fun r row => noteToRecord row = .ok r) out sel ∧
        (∀ q ∈ rows, noteFilter ds de cn after q = true → q ∉ sel →
          ∀ p ∈ sel, notePairLe (q.date, q.time) (p.date, p.time) = true)) ∧
    (∀ db ds de cn lim after out, detect_schema db = "v2" →
      get_detections_v2 db ds de cn lim after = .ok out →
      ∃ sel, mapME v2ToRecord sel = .ok out ∧
        List.Sorted detRel sel ∧
        List.Forall₂ (fun r p => v2ToRecord p = .ok r) out sel ∧
        (∀ q ∈ v2Joined db, detFilter (v2StartTs ds) (v2EndTs de) cn after q = true →
          q ∉ sel →
          ∀ p ∈ sel, optIntLe q.1.detected_at p.1.detected_at = true)) := by
  constructor
  · intro db rows ds de cn lim after out hn h
    unfold get_detections_legacy at h
    rw [hn] at h
    have hprops := pipeline_props noteRel (noteFilter ds de cn after) lim rows
    exact ⟨_, h, hprops.1, mapME_map _ _ _ h _ (fun a b hab => hab),
      fun q hq hfq hqnot p hp => hprops.2 q hq hfq hqnot p hp⟩
  · intro db ds de cn lim after out hv h
    unfold get_detections_v2 at h
    rw [if_neg (schema_v2_not_legacy db hv)] at h
    rw [hv] at h
    simp only [ne_eq, not_true_eq_false, if_false] at h
    have hprops := pipeline_props detRel (detFilter (v2StartTs ds) (v2EndTs de) cn after)
      lim (v2Joined db)
    exact ⟨_, h, hprops.1, mapME_map _ _ _ h _ (fun a b hab => hab),
      fun q hq hfq hqnot p hp => hprops.2 q hq hfq hqnot p hp⟩

/-- Legacy fixture for C10: three rows whose date order disagrees with id
order. -/
def c10Notes : List NoteRow :=
  [{ id := 1, date := some "2024-01-10", time := none, scientific_name := some "A",
     common_name := none, confidence := .null, clip_name := none },
   { id := 2, date := some "2024-01-30", time := none, scientific_name := some "B",
     common_name := none, confidence := .null, clip_name := none },
   { id := 3, date := some "2024-01-20", time := none, scientific_name := some "C",
     common_name := none, confidence := .null, clip_name := none }]

/-- Legacy C10 database. -/
def dbC10l : DB := { detections := none, labels := none, notes := some c10Notes }

/-- v2 fixture for C10: three detections whose `detected_at` order disagrees
with id order. -/
def dbC10v : DB :=
  { detections := some
      [{ id := 1, detected_at := some 100, confidence := .null,
         clip_name := none, label_id := 1 },
       { id := 2, detected_at := some 300, confidence := .null,
         clip_name := none, label_id := 1 },
       { id := 3, detected_at := some 200, confidence := .null,
         clip_name := none, label_id := 1 }]
    labels := some [{ id := 1, scientific_name := some "A" }]
    notes := none }

/-- Rows returned by the legacy C10 witness query (`limit = 2`). -/
def c10OutL : List DetRecord :=
  match get_detections_legacy dbC10l none none none 2 (some 0) with
  | .ok l => l
  | .error _ => []

/-- Rows returned by the v2 C10 witness query (`limit = 2`, polling-style
`after_id = 0`). -/
def c10OutV : List DetRecord :=
  match get_detections_v2 dbC10v none none none 2 (some 0) with
  | .ok l => l
  | .error _ => []

/-- C10 (witness): truncating at 2 of 3 qualifying rows keeps the two newest
rows (ids 2 and 3), newest first, in both dialects — not the two smallest
ids. -/
theorem c10_witness :
    get_detections_legacy dbC10l none none none 2 (some 0) = .ok c10OutL ∧
    c10OutL.map (fun r => r.id) = ["2", "3"] ∧
    (∃ sel, mapME noteToRecord sel = .ok c10OutL ∧
      List.Sorted noteRel sel ∧
      List.Forall₂ (fun r row => noteToRecord row = .ok r) c10OutL sel ∧
      (∀ q ∈ c10Notes, noteFilter none none none (some 0) q = true → q ∉ sel →
        ∀ p ∈ sel, notePairLe (q.date, q.time) (p.date, p.time) = true)) ∧
    detect_schema dbC10v = "v2" ∧
    get_detections_v2 dbC10v none none none 2 (some 0) = .ok c10OutV ∧
    c10OutV.map (fun r => r.id) = ["2", "3"] ∧
    (∃ sel, mapME v2ToRecord sel = .ok c10OutV ∧
      List.Sorted detRel sel ∧
      List.Forall₂ (fun r p => v2ToRecord p = .ok r) c10OutV sel ∧
      (∀ q ∈ v2Joined dbC10v,
        detFilter (v2StartTs none) (v2EndTs none) none (some 0) q = true → q ∉ sel →
        ∀ p ∈ sel, optIntLe q.1.detected_at p.1.detected_at = true)) :=
  have h := c10_truncation_keeps_newest
  ⟨rfl, rfl, h.1 dbC10l c10Notes none none none 2 (some 0) c10OutL rfl rfl, rfl, rfl, rfl,
   h.2 dbC10v none none none 2 (some 0) c10OutV rfl rfl⟩

/-! ### Bridge lemmas -/

theorem natStr_inj_fn : Function.Injective natStr := fun m n h => natStr_injective m n h

/-- Case analysis of one poll cycle. -/
theorem pollCycle_ok (dbMax dbFetch : DB) (s s' : BridgeState)
    (h : pollCycle dbMax dbFetch s = .ok s') :
    (s' = s ∧ ∃ cm, get_max_detection_id dbMax = .ok cm ∧ cm ≤ s.lastMaxId) ∨
    (∃ cm items, get_max_detection_id dbMax = .ok cm ∧ s.lastMaxId < cm ∧
      get_detections_v2 dbFetch none none none 500 (some s.lastMaxId) = .ok items ∧
      s'.lastMaxId = cm ∧ s'.published = s.published ++ items.map payloadOf) := by
  unfold pollCycle at h
  simp only [bind, Except.bind] at h
  cases hm : get_max_detection_id dbMax with
  | error e => rw [hm] at h; simp at h
  | ok cm =>
    rw [hm] at h
    dsimp only at h
    by_cases hle : cm ≤ s.lastMaxId
    · rw [if_pos hle] at h
      simp only [pure, Except.pure, Except.ok.injEq] at h
      exact Or.inl ⟨h.symm, cm, rfl, hle⟩
    · rw [if_neg hle] at h
      cases hi : get_detections_v2 dbFetch none none none 500 (some s.lastMaxId) with
      | error e => rw [hi] at h; simp at h
      | ok items =>
        rw [hi] at h
        simp only [pure, Except.pure, Except.ok.injEq] at h
        exact Or.inr ⟨cm, items, rfl, by omega, rfl, by rw [← h], by rw [← h]⟩

/-- Every record returned by a bridge poll query carries the decimal id of a
stored row strictly above the watermark and at most the current max id. -/
theorem bridge_items_ids (db : DB) (w : Nat) (items : List DetRecord) (cm : Nat)
    (h : get_detections_v2 db none none none 500 (some w) = .ok items)
    (hcm : get_max_detection_id db = .ok cm) :
    ∀ r ∈ items, ∃ n : Nat, r.id = natStr n ∧ w < n ∧ n ≤ cm := by
  intro r hr
  by_cases hl : detect_schema db = "legacy"
  · obtain ⟨rows, hrows⟩ := Option.isSome_iff_exists.mp (schema_legacy_notes db hl)
    have hq : get_detections_legacy db none none none 500 (some w) = .ok items := by
      unfold get_detections_v2 at h
      rw [if_pos hl] at h
      exact h
    obtain ⟨row, hrow, hf, hconv⟩ :=
      legacy_mem db rows none none none 500 (some w) items hrows hq r hr
    simp only [noteFilter, Bool.and_eq_true] at hf
    have hid : w < row.id := by
      have h4 := hf.2
      simpa using h4
    have hcm2 : cm = natListMax (rows.map (fun x => x.id)) := by
      unfold get_max_detection_id at hcm
      rw [if_pos hl, hrows] at hcm
      simpa using hcm.symm
    have hle : row.id ≤ cm := by
      rw [hcm2]
      exact le_natListMax _ _ (List.mem_map_of_mem _ hrow)
    exact ⟨row.id, (noteToRecord_ok row r hconv).1, hid, hle⟩
  · by_cases hv : detect_schema db = "v2"
    · obtain ⟨hd, hlb⟩ := schema_v2_tables db hv
      obtain ⟨dets, hdets⟩ := Option.isSome_iff_exists.mp hd
      obtain ⟨labs, hlabs⟩ := Option.isSome_iff_exists.mp hlb
      obtain ⟨p, hp, hf, hconv⟩ := v2_mem db none none none 500 (some w) items hv h r hr
      simp only [detFilter, Bool.and_eq_true] at hf
      have hid : w < p.1.id := by
        have h4 := hf.2
        simpa using h4
      have hcm2 : cm = natListMax (dets.map (fun x => x.id)) := by
        unfold get_max_detection_id at hcm
        rw [if_neg hl, hdets] at hcm
        simpa using hcm.symm
      have hmem : p.1 ∈ dets := v2Joined_fst_mem db dets hdets labs hlabs p hp
      have hle : p.1.id ≤ cm := by
        rw [hcm2]
        exact le_natListMax _ _ (List.mem_map_of_mem _ hmem)
      exact ⟨p.1.id, (v2ToRecord_ok p r hconv).1, hid, hle⟩
    · exfalso
      unfold get_detections_v2 at h
      rw [if_neg hl, if_pos hv] at h
      simp at h

/-- The uniqueness assumption the bridge needs from a database snapshot:
primary-key ids are unique in each table. -/
def dbNodup (db : DB) : Prop :=
  ((db.detections.getD []).map (fun r => r.id)).Nodup ∧
  ((db.notes.getD []).map (fun r => r.id)).Nodup

/-- A poll query never returns the same id twice within one batch. -/
theorem bridge_items_nodup (db : DB) (w : Nat) (items : List DetRecord)
    (h : get_detections_v2 db none none none 500 (some w) = .ok items)
    (hnd : dbNodup db) : (items.map (fun r => r.id)).Nodup := by
  by_cases hl : detect_schema db = "legacy"
  · obtain ⟨rows, hrows⟩ := Option.isSome_iff_exists.mp (schema_legacy_notes db hl)
    have hq : get_detections_legacy db none none none 500 (some w) = .ok items := by
      unfold get_detections_v2 at h
      rw [if_pos hl] at h
      exact h
    unfold get_detections_legacy at hq
    rw [hrows] at hq
    have hmap := forall2_map_eq (fun r : DetRecord => r.id) (fun row : NoteRow => natStr row.id)
      items _ (mapME_map _ _ _ hq _ (fun a b hab => (noteToRecord_ok a b hab).1))
    rw [hmap]
    have hrowsnd : (rows.map (fun r => r.id)).Nodup := by
      have := hnd.2
      rw [hrows] at this
      simpa using this
    have hids := nodup_ids_of_pipeline (fun r : NoteRow => r.id) noteRel
      (noteFilter none none none (some w)) 500 rows hrowsnd
    have : ((applyLimit 500 (List.insertionSort noteRel
        (rows.filter (noteFilter none none none (some w))))).map
          (fun row : NoteRow => natStr row.id)) =
        ((applyLimit 500 (List.insertionSort noteRel
          (rows.filter (noteFilter none none none (some w))))).map
            (fun r : NoteRow => r.id)).map natStr := by
      rw [List.map_map]
      rfl
    rw [this]
    exact hids.map natStr_inj_fn
  · by_cases hv : detect_schema db = "v2"
    · obtain ⟨hd, hlb⟩ := schema_v2_tables db hv
      obtain ⟨dets, hdets⟩ := Option.isSome_iff_exists.mp hd
      have hjq : mapME v2ToRecord (applyLimit 500 (List.insertionSort detRel
          ((v2Joined db).filter (detFilter (v2StartTs none) (v2EndTs none) none
            (some w))))) = .ok items := by
        unfold get_detections_v2 at h
        rw [if_neg hl] at h
        rw [hv] at h
        simpa using h
      have hmap := forall2_map_eq (fun r : DetRecord => r.id)
        (fun p : DetRow × LabelRow => natStr p.1.id)
        items _ (mapME_map _ _ _ hjq _ (fun a b hab => (v2ToRecord_ok a b hab).1))
      rw [hmap]
      have hdetsnd : (dets.map (fun r => r.id)).Nodup := by
        have := hnd.1
        rw [hdets] at this
        simpa using this
      have hjoinnd : ((v2Joined db).map (fun p => p.1.id)).Nodup := by
        have hsub : ((v2Joined db).map (fun p => p.1.id)).Sublist
            (dets.map (fun r => r.id)) := by
          obtain ⟨labs, hlabs⟩ := Option.isSome_iff_exists.mp hlb
          have h1 := (v2Joined_fst_sublist db dets hdets labs hlabs).map (fun r : DetRow => r.id)
          rw [List.map_map] at h1
          exact h1
        exact hdetsnd.sublist hsub
      have hids := nodup_ids_of_pipeline (fun p : DetRow × LabelRow => p.1.id) detRel
        (detFilter (v2StartTs none) (v2EndTs none) none (some w)) 500 (v2Joined db) hjoinnd
      have hcomp : ((applyLimit 500 (List.insertionSort detRel
          ((v2Joined db).filter (detFilter (v2StartTs none) (v2EndTs none) none
            (some w))))).map (fun p : DetRow × LabelRow => natStr p.1.id)) =
          ((applyLimit 500 (List.insertionSort detRel
            ((v2Joined db).filter (detFilter (v2StartTs none) (v2EndTs none) none
              (some w))))).map (fun p : DetRow × LabelRow => p.1.id)).map natStr := by
        rw [List.map_map]
        rfl
      rw [hcomp]
      exact hids.map natStr_inj_fn
    · exfalso
      unfold get_detections_v2 at h
      rw [if_neg hl, if_pos hv] at h
      simp at h

/-- Every record returned by a bridge poll query carries the decimal id of a
stored row strictly above the watermark, whatever snapshot the fetch sees. -/
theorem bridge_items_gt (db : DB) (w : Nat) (items : List DetRecord)
    (h : get_detections_v2 db none none none 500 (some w) = .ok items) :
    ∀ r ∈ items, ∃ n : Nat, r.id = natStr n ∧ w < n := by
  intro r hr
  by_cases hl : detect_schema db = "legacy"
  · obtain ⟨rows, hrows⟩ := Option.isSome_iff_exists.mp (schema_legacy_notes db hl)
    have hq : get_detections_legacy db none none none 500 (some w) = .ok items := by
      unfold get_detections_v2 at h
      rw [if_pos hl] at h
      exact h
    obtain ⟨row, hrow, hf, hconv⟩ :=
      legacy_mem db rows none none none 500 (some w) items hrows hq r hr
    simp only [noteFilter, Bool.and_eq_true] at hf
    have hid : w < row.id := by
      have h4 := hf.2
      simpa using h4
    exact ⟨row.id, (noteToRecord_ok row r hconv).1, hid⟩
  · by_cases hv : detect_schema db = "v2"
    · obtain ⟨p, hp, hf, hconv⟩ := v2_mem db none none none 500 (some w) items hv h r hr
      simp only [detFilter, Bool.and_eq_true] at hf
      have hid : w < p.1.id := by
        have h4 := hf.2
        simpa using h4
      exact ⟨p.1.id, (v2ToRecord_ok p r hconv).1, hid⟩
    · exfalso
      unfold get_detections_v2 at h
      rw [if_neg hl, if_pos hv] at h
      simp at h

/-- One cycle never lowers the watermark, and only appends payloads whose
ids lie strictly above the old watermark — under arbitrary per-statement
snapshots. -/
theorem pollCycle_step (dbMax dbFetch : DB) (s s' : BridgeState)
    (h : pollCycle dbMax dbFetch s = .ok s') :
    s.lastMaxId ≤ s'.lastMaxId ∧
    ∃ ps, s'.published = s.published ++ ps ∧
      ∀ p ∈ ps, ∃ n : Nat, p.id = natStr n ∧ s.lastMaxId < n := by
  rcases pollCycle_ok dbMax dbFetch s s' h with ⟨hs, _⟩ |
    ⟨cm, items, hcm, hlt, hitems, hmax, hpub⟩
  · subst hs
    exact ⟨le_refl _, [], by simp, by simp⟩
  · refine ⟨by omega, items.map payloadOf, hpub, ?_⟩
    intro p hp
    obtain ⟨r, hrin, hreq⟩ := List.mem_map.mp hp
    obtain ⟨n, hid, hgt⟩ := bridge_items_gt dbFetch s.lastMaxId items hitems r hrin
    refine ⟨n, ?_, hgt⟩
    rw [← hreq]
    exact hid

/-- Across any successful run, the watermark never decreases and every newly
published payload carries an id above the starting watermark. -/
theorem runCycles_invariant (cycles : List (DB × DB)) (s s' : BridgeState)
    (h : runCycles cycles s = .ok s') :
    s.lastMaxId ≤ s'.lastMaxId ∧
    ∀ p ∈ s'.published, p ∈ s.published ∨
      ∃ n : Nat, p.id = natStr n ∧ s.lastMaxId < n := by
  induction cycles generalizing s with
  | nil =>
    simp only [runCycles, Except.ok.injEq] at h
    subst h
    exact ⟨le_refl _, fun p hp => Or.inl hp⟩
  | cons d ds ih =>
    simp only [runCycles, bind, Except.bind] at h
    cases hc : pollCycle d.1 d.2 s with
    | error e => rw [hc] at h; simp at h
    | ok s2 =>
      rw [hc] at h
      have h1 := pollCycle_step d.1 d.2 s s2 hc
      have h2 := ih s2 h
      refine ⟨le_trans h1.1 h2.1, ?_⟩
      intro p hp
      rcases h2.2 p hp with hin | ⟨n, hid, hgt⟩
      · obtain ⟨ps, hps, hpids⟩ := h1.2
        rw [hps] at hin
        rcases List.mem_append.mp hin with h3 | h3
        · exact Or.inl h3
        · obtain ⟨n, hid, hgt⟩ := hpids p h3
          exact Or.inr ⟨n, hid, hgt⟩
      · exact Or.inr ⟨n, hid, by omega⟩

/-- Invariant-carrying form of the no-duplicates property, for quiescent
runs: each cycle's two statements see the same snapshot. -/
theorem runCycles_nodup_aux (cycles : List (DB × DB)) :
    ∀ (s s' : BridgeState),
    (∀ d ∈ cycles, d.1 = d.2 ∧ dbNodup d.1) →
    ((s.published.map (fun p => p.id)).Nodup ∧
      ∀ p ∈ s.published, ∃ n : Nat, p.id = natStr n ∧ n ≤ s.lastMaxId) →
    runCycles cycles s = .ok s' →
    (s'.published.map (fun p => p.id)).Nodup ∧
      ∀ p ∈ s'.published, ∃ n : Nat, p.id = natStr n ∧ n ≤ s'.lastMaxId := by
  induction cycles with
  | nil =>
    intro s s' hq hstart h
    simp only [runCycles, Except.ok.injEq] at h
    subst h
    exact hstart
  | cons d ds ih =>
    intro s s' hq hstart h
    simp only [runCycles, bind, Except.bind] at h
    cases hc : pollCycle d.1 d.2 s with
    | error e => rw [hc] at h; simp at h
    | ok s2 =>
      rw [hc] at h
      have hdd : d.1 = d.2 := (hq d (List.mem_cons_self d ds)).1
      have hnd1 : dbNodup d.1 := (hq d (List.mem_cons_self d ds)).2
      rw [← hdd] at hc
      refine ih s2 s' (fun x hx => hq x (List.mem_cons_of_mem d hx)) ?_ h
      rcases pollCycle_ok d.1 d.1 s s2 hc with ⟨hs, _⟩ |
        ⟨cm, items, hcm, hlt, hitems, hmax, hpub⟩
      · subst hs
        exact hstart
      · constructor
        · rw [hpub, List.map_append, List.nodup_append]
          refine ⟨hstart.1, ?_, ?_⟩
          · have hbn := bridge_items_nodup d.1 s.lastMaxId items hitems hnd1
            have hcomp : ((items.map payloadOf).map (fun p => p.id)) =
                items.map (fun r => r.id) := by
              rw [List.map_map]
              rfl
            rw [hcomp]
            exact hbn
          · intro a ha hb
            obtain ⟨p, hpin, hpeq⟩ := List.mem_map.mp ha
            obtain ⟨n, hid, hle⟩ := hstart.2 p hpin
            obtain ⟨m, hmin, hmeq⟩ := List.mem_map.mp hb
            obtain ⟨r, hrin, hreq⟩ := List.mem_map.mp hmin
            obtain ⟨n2, hid2, hgt2, _⟩ :=
              bridge_items_ids d.1 s.lastMaxId items cm hitems hcm r hrin
            have hmid : m.id = natStr n2 := by
              rw [← hreq]
              exact hid2
            have : natStr n = natStr n2 := by
              rw [← hid, ← hmid, hpeq, hmeq]
            have := natStr_injective n n2 this
            omega
        · intro p hp
          rw [hpub] at hp
          rcases List.mem_append.mp hp with h3 | h3
          · obtain ⟨n, hid, hle⟩ := hstart.2 p h3
            exact ⟨n, hid, by omega⟩
          · obtain ⟨r, hrin, hreq⟩ := List.mem_map.mp h3
            obtain ⟨n, hid, hgt, hlecm⟩ :=
              bridge_items_ids d.1 s.lastMaxId items cm hitems hcm r hrin
            refine ⟨n, ?_, by omega⟩
            rw [← hreq]
            exact hid

/-! ### Claim C2: watermark monotonicity, no duplicate publishes -/

/-- C2 (amended): (a) each poll cycle either leaves the watermark unchanged
or advances it to the strictly larger current max id read by its first SQL
statement; (b) starting from an empty publish history, no detection
identifier is published twice across a run whose every cycle's two SQL
statements see the same snapshot, provided each snapshot has unique ids.
The unamended no-duplication claim is false of the code: the two statements
run back-to-back with no transaction, so a row committed between them is
fetched above the old max and republished next cycle (`c2_counterexample`). -/
theorem c2_watermark_monotone_no_dup :
    (∀ dbMax dbFetch s s', pollCycle dbMax dbFetch s = .ok s' →
      s'.lastMaxId = s.lastMaxId ∨
        (s.lastMaxId < s'.lastMaxId ∧ get_max_detection_id dbMax = .ok s'.lastMaxId)) ∧
    (∀ cycles w s', (∀ d ∈ cycles, d.1 = d.2 ∧ dbNodup d.1) →
      runCycles cycles { lastMaxId := w, published := [] } = .ok s' →
      (s'.published.map (fun p => p.id)).Nodup) := by
  constructor
  · intro dbMax dbFetch s s' h
    rcases pollCycle_ok dbMax dbFetch s s' h with ⟨hs, _⟩ |
      ⟨cm, items, hcm, hlt, _, hmax, _⟩
    · subst hs
      exact Or.inl rfl
    · refine Or.inr ⟨by omega, ?_⟩
      rw [hmax]
      exact hcm
  · intro cycles w s' hq h
    exact (runCycles_nodup_aux cycles { lastMaxId := w, published := [] } s' hq
      ⟨by simp, by simp⟩ h).1

/-- Two-row v2 snapshot: the table as the first cycle's max-id query sees it. -/
def dbT2 : DB :=
  { detections := some
      [{ id := 2, detected_at := some 20, confidence := .null,
         clip_name := none, label_id := 1 },
       { id := 1, detected_at := some 10, confidence := .null,
         clip_name := none, label_id := 1 }]
    labels := some [{ id := 1, scientific_name := some "A" }]
    notes := none }

/-- The same table after a writer commits row 3 between the cycle's two
statements: the snapshot the fetch query (and the next cycle) sees. -/
def dbT3 : DB :=
  { detections := some
      [{ id := 3, detected_at := some 30, confidence := .null,
         clip_name := none, label_id := 1 },
       { id := 2, detected_at := some 20, confidence := .null,
         clip_name := none, label_id := 1 },
       { id := 1, detected_at := some 10, confidence := .null,
         clip_name := none, label_id := 1 }]
    labels := some [{ id := 1, scientific_name := some "A" }]
    notes := none }

/-- Published id list of the interleaved two-cycle run. -/
def c2Dup : List String :=
  match runCycles [(dbT2, dbT3), (dbT3, dbT3)] { lastMaxId := 1, published := [] } with
  | .ok s => s.published.map (fun p => p.id)
  | .error _ => []

/-- C2 (counterexample): with row 3 committed between the max-id read and the
fetch, the first cycle publishes ids 3 and 2 but records watermark 2, and the
second cycle republishes id 3 — the run's published id list ["3","2","3"]
has a duplicate even though every snapshot has unique ids. -/
theorem c2_counterexample :
    dbNodup dbT2 ∧ dbNodup dbT3 ∧
    c2Dup = ["3", "2", "3"] ∧
    ¬ (c2Dup).Nodup := by
  refine ⟨⟨by decide, by decide⟩, ⟨by decide, by decide⟩, rfl, ?_⟩
  rw [show c2Dup = ["3", "2", "3"] from rfl]
  decide

/-- The quiescent snapshot pair used by the C2 witness run. -/
def dbW : DB :=
  { detections := some
      [{ id := 1, detected_at := some 10, confidence := .null,
         clip_name := none, label_id := 1 },
       { id := 2, detected_at := some 20, confidence := .null,
         clip_name := none, label_id := 1 }]
    labels := some [{ id := 1, scientific_name := some "A" }]
    notes := none }

/-- Final state of the one-cycle quiescent C2 witness run. -/
def c2S : BridgeState :=
  match runCycles [(dbW, dbW)] { lastMaxId := 0, published := [] } with
  | .ok s => s
  | .error _ => { lastMaxId := 0, published := [] }

/-- State after a single poll cycle whose both statements read `dbW`. -/
def c2S1 : BridgeState :=
  match pollCycle dbW dbW { lastMaxId := 0, published := [] } with
  | .ok s => s
  | .error _ => { lastMaxId := 0, published := [] }

/-- C2 (witness): a concrete quiescent one-cycle run over a two-row snapshot
publishes distinct ids, and the cycle advances the watermark to the max. -/
theorem c2_witness :
    (∀ d ∈ [(dbW, dbW)], d.1 = d.2 ∧ dbNodup d.1) ∧
    runCycles [(dbW, dbW)] { lastMaxId := 0, published := [] } = .ok c2S ∧
    (c2S.published.map (fun p => p.id)).Nodup ∧
    pollCycle dbW dbW { lastMaxId := 0, published := [] } = .ok c2S1 ∧
    (c2S1.lastMaxId = 0 ∨
      (0 < c2S1.lastMaxId ∧ get_max_detection_id dbW = .ok c2S1.lastMaxId)) :=
  have hq : ∀ d ∈ [(dbW, dbW)], d.1 = d.2 ∧ dbNodup d.1 := by
    intro d hd
    simp only [List.mem_singleton] at hd
    subst hd
    exact ⟨rfl, by decide, by decide⟩
  ⟨hq, rfl,
   c2_watermark_monotone_no_dup.2 [(dbW, dbW)] 0 c2S hq rfl,
   rfl,
   c2_watermark_monotone_no_dup.1 dbW dbW { lastMaxId := 0, published := [] } c2S1 rfl⟩

/-! ### Claim C1: burst behaviour of the bridge -/

/-- C1: when 600 joined rows have ids above the watermark at the start of a
poll cycle, that cycle publishes exactly 500 messages and advances the
watermark to the true current maximum id of the `detections` table; 100
qualifying rows are left over, no message carrying one of their ids is
published in this cycle, and — because every later cycle only publishes ids
strictly above the (by then at-least-as-large) watermark — no message
carrying one of their ids is ever published by any later run of cycles,
whatever snapshot pairs those later cycles' statements see. -/
theorem c1_burst_skips_excess (db : DB) (s s' : BridgeState)
    (hv : detect_schema db = "v2")
    (hnodup : ((db.detections.getD []).map (fun r => r.id)).Nodup)
    (hcount : ((v2Joined db).filter
      (detFilter none none none (some s.lastMaxId))).length = 600)
    (hpoll : pollCycle db db s = .ok s') :
    s'.published.length = s.published.length + 500 ∧
    (∀ dets, db.detections = some dets →
      s'.lastMaxId = natListMax (dets.map (fun r => r.id))) ∧
    ∃ skipped : List (DetRow × LabelRow),
      skipped.length = 100 ∧
      (∀ q ∈ skipped, q ∈ v2Joined db ∧
        detFilter none none none (some s.lastMaxId) q = true) ∧
      (∀ q ∈ skipped, ∀ m ∈ s'.published, m ∉ s.published → m.id ≠ natStr q.1.id) ∧
      (∀ q ∈ skipped, ∀ dbs s'', runCycles dbs s' = .ok s'' →
        ∀ m ∈ s''.published, m ∉ s'.published → m.id ≠ natStr q.1.id) := by
  obtain ⟨hd, hlb⟩ := schema_v2_tables db hv
  obtain ⟨dets, hdets⟩ := Option.isSome_iff_exists.mp hd
  obtain ⟨labs, hlabs⟩ := Option.isSome_iff_exists.mp hlb
  have hcmval : get_max_detection_id db = .ok (natListMax (dets.map (fun r => r.id))) := by
    unfold get_max_detection_id
    rw [if_neg (schema_v2_not_legacy db hv), hdets]
  have hne : (v2Joined db).filter (detFilter none none none (some s.lastMaxId)) ≠ [] := by
    intro hemp
    rw [hemp] at hcount
    simp at hcount
  obtain ⟨p0, hp0⟩ := List.exists_mem_of_ne_nil _ hne
  have hp0f := List.mem_filter.mp hp0
  have hgt : s.lastMaxId < natListMax (dets.map (fun r => r.id)) := by
    have h1 : s.lastMaxId < p0.1.id := by
      have h2 := hp0f.2
      simp only [detFilter, Bool.and_eq_true] at h2
      simpa using h2.2
    have h2 : p0.1.id ≤ natListMax (dets.map (fun r => r.id)) :=
      le_natListMax _ _
        (List.mem_map_of_mem _ (v2Joined_fst_mem db dets hdets labs hlabs p0 hp0f.1))
    omega
  rcases pollCycle_ok db db s s' hpoll with ⟨hs, cm, hcm, hle⟩ |
    ⟨cm, items, hcm, hlt, hitems, hmax, hpub⟩
  · exfalso
    rw [hcmval] at hcm
    have := Except.ok.inj hcm
    omega
  · have hcmeq : cm = natListMax (dets.map (fun r => r.id)) := by
      rw [hcmval] at hcm
      exact (Except.ok.inj hcm).symm
    have hitems2 : mapME v2ToRecord (applyLimit 500 (List.insertionSort detRel
        ((v2Joined db).filter (detFilter none none none (some s.lastMaxId))))) =
        .ok items := by
      unfold get_detections_v2 at hitems
      rw [if_neg (schema_v2_not_legacy db hv)] at hitems
      rw [hv] at hitems
      simpa using hitems
    have hsortlen : (List.insertionSort detRel
        ((v2Joined db).filter (detFilter none none none (some s.lastMaxId)))).length
        = 600 := by
      rw [(List.perm_insertionSort detRel _).length_eq]
      exact hcount
    have hseltake : applyLimit 500 (List.insertionSort detRel
        ((v2Joined db).filter (detFilter none none none (some s.lastMaxId)))) =
        (List.insertionSort detRel
          ((v2Joined db).filter (detFilter none none none (some s.lastMaxId)))).take 500 := by
      unfold applyLimit
      rw [show min (500 : Int) 500 = 500 from by norm_num]
      rw [if_neg (by norm_num : ¬ (500 : Int) < 0)]
      rw [show Int.toNat 500 = 500 from rfl]
    have hsellen : (applyLimit 500 (List.insertionSort detRel
        ((v2Joined db).filter (detFilter none none none (some s.lastMaxId))))).length
        = 500 := by
      rw [hseltake, List.length_take, hsortlen]
      norm_num
    have hitemslen : items.length = 500 := by
      rw [mapME_length _ _ _ hitems2, hsellen]
    have hdetsnd : (dets.map (fun r => r.id)).Nodup := by
      rw [hdets] at hnodup
      simpa using hnodup
    have hjsub : ((v2Joined db).map (fun p => p.1.id)).Sublist
        (dets.map (fun r => r.id)) := by
      have h1 := (v2Joined_fst_sublist db dets hdets labs hlabs).map (fun r : DetRow => r.id)
      rw [List.map_map] at h1
      exact h1
    have hjnd : ((v2Joined db).map (fun p => p.1.id)).Nodup := hdetsnd.sublist hjsub
    have hfnd : (((v2Joined db).filter
        (detFilter none none none (some s.lastMaxId))).map (fun p => p.1.id)).Nodup :=
      hjnd.sublist ((List.filter_sublist _).map _)
    have hsortnd : ((List.insertionSort detRel
        ((v2Joined db).filter (detFilter none none none (some s.lastMaxId)))).map
          (fun p => p.1.id)).Nodup :=
      ((List.perm_insertionSort detRel _).map _).nodup_iff.mpr hfnd
    refine ⟨?_, ?_, ?_⟩
    · rw [hpub]
      simp [hitemslen]
    · intro dets' hdets'
      rw [hdets'] at hdets
      rw [hmax, hcmeq, Option.some.inj hdets]
    · refine ⟨(List.insertionSort detRel
        ((v2Joined db).filter (detFilter none none none (some s.lastMaxId)))).drop 500,
        ?_, ?_, ?_, ?_⟩
      · rw [List.length_drop, hsortlen]
      · intro q hq
        have hqs : q ∈ List.insertionSort detRel
            ((v2Joined db).filter (detFilter none none none (some s.lastMaxId))) :=
          (List.drop_sublist _ _).mem hq
        have hqf := (List.perm_insertionSort detRel _).mem_iff.mp hqs
        exact ⟨(List.mem_filter.mp hqf).1, (List.mem_filter.mp hqf).2⟩
      · intro q hq m hm hmnot
        rw [hpub] at hm
        rcases List.mem_append.mp hm with h3 | h3
        · exact absurd h3 hmnot
        · obtain ⟨r, hrin, hreq⟩ := List.mem_map.mp h3
          obtain ⟨a, hain, haconv⟩ := mapME_mem _ _ _ hitems2 r hrin
          have hdisj : ∀ x ∈ (List.insertionSort detRel
              ((v2Joined db).filter (detFilter none none none (some s.lastMaxId)))).take 500,
              ∀ y ∈ (List.insertionSort detRel
                ((v2Joined db).filter
                  (detFilter none none none (some s.lastMaxId)))).drop 500,
              x.1.id ≠ y.1.id := by
            have hnd2 : (((List.insertionSort detRel
                ((v2Joined db).filter
                  (detFilter none none none (some s.lastMaxId)))).take 500).map
                    (fun p => p.1.id) ++
                ((List.insertionSort detRel
                  ((v2Joined db).filter
                    (detFilter none none none (some s.lastMaxId)))).drop 500).map
                      (fun p => p.1.id)).Nodup := by
              rw [← List.map_append, List.take_append_drop]
              exact hsortnd
            have hdis := (List.nodup_append.mp hnd2).2.2
            intro x hx y hy heq
            exact hdis (List.mem_map_of_mem _ hx) (heq ▸ List.mem_map_of_mem _ hy)
          have hid_r : r.id = natStr a.1.id := (v2ToRecord_ok a r haconv).1
          intro heq
          have heq2 : r.id = natStr q.1.id := by
            rw [← hreq] at heq
            exact heq
          have h5 : natStr a.1.id = natStr q.1.id := hid_r.symm.trans heq2
          have hids : a.1.id = q.1.id := natStr_injective _ _ h5
          have hasel : a ∈ (List.insertionSort detRel
              ((v2Joined db).filter
                (detFilter none none none (some s.lastMaxId)))).take 500 := by
            rw [← hseltake]
            exact hain
          exact hdisj a hasel q hq hids
      · intro q hq dbs s'' hrun m hm hmnot
        have hinv := runCycles_invariant dbs s' s'' hrun
        rcases hinv.2 m hm with hin | ⟨n, hid, hgtn⟩
        · exact absurd hin hmnot
        · have hqmem : q.1 ∈ dets := by
            have hqs : q ∈ List.insertionSort detRel
                ((v2Joined db).filter (detFilter none none none (some s.lastMaxId))) :=
              (List.drop_sublist _ _).mem hq
            have hqf := (List.perm_insertionSort detRel _).mem_iff.mp hqs
            exact v2Joined_fst_mem db dets hdets labs hlabs q (List.mem_filter.mp hqf).1
          have hqle : q.1.id ≤ natListMax (dets.map (fun r => r.id)) :=
            le_natListMax _ _ (List.mem_map_of_mem _ hqmem)
          rw [hid]
          intro heq
          have := natStr_injective n q.1.id heq
          rw [hmax, hcmeq] at hgtn
          omega

/-- Row `i` of the burst fixture: ids ascend 1…600 while `detected_at`
descends, so the 500 kept rows are the newest ones. -/
def detRow600 (i : Nat) : DetRow :=
  { id := i + 1, detected_at := some (2000 - (i + 1 : Int)), confidence := .null,
    clip_name := none, label_id := 1 }

/-- A v2 snapshot with 600 rows above watermark 0. -/
def db600 : DB :=
  { detections := some ((List.range 600).map detRow600)
    labels := some [{ id := 1, scientific_name := some "Passer domesticus" }]
    notes := none }

/-- Bridge start state for the burst witness. -/
def c1S0 : BridgeState := { lastMaxId := 0, published := [] }

/-- The batch the burst cycle fetches. -/
def c1Items : List DetRecord :=
  match get_detections_v2 db600 none none none 500 (some 0) with
  | .ok l => l
  | .error _ => []

/-- Bridge state after the burst cycle. -/
def c1S1 : BridgeState := { lastMaxId := 600, published := c1Items.map payloadOf }

theorem db600_ids_nodup : ((db600.detections.getD []).map (fun r => r.id)).Nodup := by
  show (((List.range 600).map detRow600).map (fun r => r.id)).Nodup
  rw [List.map_map]
  rw [show ((fun r : DetRow => r.id) ∘ detRow600) = fun i => i + 1 from rfl]
  exact (List.nodup_range 600).map (add_left_injective 1)

theorem foldr_max_acc (l : List Nat) (c : Nat) : l.foldr max c = max c (l.foldr max 0) := by
  induction l with
  | nil => simp
  | cons a l ih =>
    simp only [List.foldr_cons]
    rw [ih, Nat.max_left_comm]

theorem natListMax_append_single (l : List Nat) (x : Nat) :
    natListMax (l ++ [x]) = max (natListMax l) x := by
  unfold natListMax
  rw [List.foldr_append]
  simp only [List.foldr_cons, List.foldr_nil]
  rw [foldr_max_acc]
  simp [Nat.max_comm]

theorem natListMax_range_map (n : Nat) :
    natListMax ((List.range n).map (fun i => i + 1)) = n := by
  induction n with
  | zero => rfl
  | succ k ih =>
    rw [List.range_succ, List.map_append]
    simp only [List.map_cons, List.map_nil]
    rw [natListMax_append_single, ih]
    exact max_eq_right (by omega)

theorem db600_max_eval : get_max_detection_id db600 = .ok 600 := by
  unfold get_max_detection_id
  rw [if_neg (by decide : ¬ detect_schema db600 = "legacy")]
  rw [show db600.detections = some ((List.range 600).map detRow600) from rfl]
  dsimp only
  rw [List.map_map]
  rw [show ((fun r : DetRow => r.id) ∘ detRow600) = fun i => i + 1 from rfl]
  rw [natListMax_range_map]

theorem c1_items_eval : get_detections_v2 db600 none none none 500 (some 0) = .ok c1Items :=
  rfl

theorem c1_poll_eval : pollCycle db600 db600 c1S0 = .ok c1S1 := by
  unfold pollCycle c1S0
  rw [db600_max_eval]
  simp only [bind, Except.bind]
  rw [if_neg (by decide : ¬ ((600 : Nat) ≤ 0))]
  rw [c1_items_eval]
  rfl

/-- C1 (witness): the burst scenario evaluated — 600 new rows, one cycle
publishes exactly 500 messages, the watermark jumps to the true maximum 600,
and 100 qualifying rows are skipped for good. -/
theorem c1_witness :
    detect_schema db600 = "v2" ∧
    ((v2Joined db600).filter (detFilter none none none (some 0))).length = 600 ∧
    pollCycle db600 db600 c1S0 = .ok c1S1 ∧
    c1S1.published.length = 500 ∧
    c1S1.lastMaxId = 600 ∧
    (∃ skipped : List (DetRow × LabelRow),
      skipped.length = 100 ∧
      (∀ q ∈ skipped, q ∈ v2Joined db600 ∧
        detFilter none none none (some 0) q = true) ∧
      (∀ q ∈ skipped, ∀ m ∈ c1S1.published, m ∉ c1S0.published → m.id ≠ natStr q.1.id) ∧
      (∀ q ∈ skipped, ∀ dbs s'', runCycles dbs c1S1 = .ok s'' →
        ∀ m ∈ s''.published, m ∉ c1S1.published → m.id ≠ natStr q.1.id)) :=
  have h := c1_burst_skips_excess db600 c1S0 c1S1 rfl db600_ids_nodup rfl c1_poll_eval
  ⟨rfl, rfl, c1_poll_eval, h.1.trans rfl, rfl, h.2.2⟩

end B2HA
